import Mathlib

/-!
Verification of minio/direct-csi against its specification.

Each Go function relevant to the claims is embedded shallowly as a Lean
definition: pure functions become Lean functions, stateful handlers become
explicit state passing parameterized by oracles for the outcomes of
syscalls and API calls, and fallible code returns `Except`/`Option`.
-/

/-- gRPC canonical status codes used by the driver
(`google.golang.org/grpc/codes`). -/
inductive Code where
  | invalidArgument
  | notFound
  | failedPrecondition
  | outOfRange
  | resourceExhausted
  | internal
deriving Repr, DecidableEq

/-- `strings.Split(s, sep)` for a one-character separator, at the level of
character lists: every occurrence of `sep` separates fields, and the result
is never empty. -/
def splitOnChar (sep : Char) : List Char → List (List Char)
  | [] => [[]]
  | c :: cs =>
    if c = sep then [] :: splitOnChar sep cs
    else
      match splitOnChar sep cs with
      | h :: t => (c :: h) :: t
      | [] => [[c]]

/-- `strings.Split` on a `String`, one-character separator. -/
def splitStr (sep : Char) (s : String) : List String :=
  (splitOnChar sep s.data).map List.asString

/-- `strings.TrimSpace` (uevent records and the paths involved are ASCII,
where Go and Lean whitespace coincide). -/
def trimStr (s : String) : String :=
  (((s.data.dropWhile Char.isWhitespace).reverse.dropWhile
      Char.isWhitespace).reverse).asString

/-- `strings.HasPrefix s p`, at character level. -/
def strHasPrefix (s p : String) : Bool :=
  p.data.isPrefixOf s.data

namespace Ctrl

/-- Drive fields consumed by the controller-side filters
(`pkg/controller/utils.go`); topology segments are the entries of the Go
`map[string]string`, listed without duplicate keys. -/
structure Drive where
  name : String
  nodeName : String
  driveStatus : String
  freeCapacity : Int
  filesystem : String
  topology : List (String × String)
deriving Repr, DecidableEq

/-- `csi.CapacityRange` of a CreateVolume request. -/
structure CapacityRange where
  requiredBytes : Int
  limitBytes : Int
deriving Repr, DecidableEq

/-- The parts of `csi.CreateVolumeRequest` read by the filters: a nil
capacity range reads as 0 required bytes; `volumeCapabilities` lists the
mount fstype of each capability (empty string when unset). -/
structure CreateVolumeRequest where
  capacityRange : Option CapacityRange
  volumeCapabilities : List String
  preferred : List (List (String × String))
  requisite : List (List (String × String))
deriving Repr, DecidableEq

/-- `volReq.GetCapacityRange().GetRequiredBytes()`: nil-safe accessor. -/
def requiredBytes (req : CreateVolumeRequest) : Int :=
  match req.capacityRange with
  | none => 0
  | some r => r.requiredBytes

/-- fstype of the first volume capability, empty when the list is empty
(lines 36-39 of `pkg/controller/utils.go`). -/
def requestFsType (req : CreateVolumeRequest) : String :=
  match req.volumeCapabilities with
  | [] => ""
  | c :: _ => c

/-- `FilterDrivesByRequestFormat`: keep drives whose status is Ready or
InUse. -/
def FilterDrivesByRequestFormat (csiDrives : List Drive) : List Drive :=
  csiDrives.filter fun d => d.driveStatus == "ready" || d.driveStatus == "in_use"

/-- `FilterDrivesByCapacityRange`: keep drives with
`FreeCapacity >= reqBytes`; the limit bytes are not consulted. -/
def FilterDrivesByCapacityRange (reqBytes : Int) (csiDrives : List Drive) :
    List Drive :=
  csiDrives.filter fun d => decide (reqBytes ≤ d.freeCapacity)

/-- `FilterDrivesByFsType`: empty request passes all drives, otherwise keep
drives whose filesystem equals the requested one. -/
def FilterDrivesByFsType (fsType : String) (csiDrives : List Drive) :
    List Drive :=
  if fsType = "" then csiDrives
  else csiDrives.filter fun d => d.filesystem == fsType

/-- Outcome of the filter pipeline: a Go panic, a gRPC status error, or the
filtered drive list. -/
inductive FilterResult where
  | panicked (msg : String)
  | errored (code : Code) (msg : String)
  | ok (drives : List Drive)
deriving Repr, DecidableEq

/-- The logging loops between the gates build
`f.Status.NodeName + "-" + f.Name[0:8]` for every surviving drive
(`utils.go` lines 46-50, 57-61, 68-72); the byte slice `f.Name[0:8]`
panics when the name is shorter than 8 bytes (drive names are ASCII, so
byte length and character length agree). -/
def logNamesPanic (csiDrives : List Drive) : Bool :=
  csiDrives.any fun d => decide (d.name.length < 8)

/-- `FilterDrivesByVolumeRequest`: the three-stage filter pipeline with its
error codes; after each non-empty gate the logging loop runs and panics on
a drive name shorter than 8 bytes. -/
def FilterDrivesByVolumeRequest (volReq : CreateVolumeRequest)
    (csiDrives : List Drive) : FilterResult :=
  let fsType := requestFsType volReq
  let filteredDrivesByFormat := FilterDrivesByRequestFormat csiDrives
  if filteredDrivesByFormat.isEmpty then
    .errored .failedPrecondition
      "No csi drives are been added. Please use add drives plugin command to add the drives"
  else if logNamesPanic filteredDrivesByFormat then
    .panicked "slice bounds out of range"
  else
    let capFilteredDrives :=
      FilterDrivesByCapacityRange (requiredBytes volReq) filteredDrivesByFormat
    if capFilteredDrives.isEmpty then
      .errored .outOfRange "Invalid capacity range"
    else if logNamesPanic capFilteredDrives then
      .panicked "slice bounds out of range"
    else
      let fsFilteredDrives := FilterDrivesByFsType fsType capFilteredDrives
      if fsFilteredDrives.isEmpty then
        .errored .invalidArgument
          ("Cannot find any drives by the fstype: " ++ fsType)
      else if logNamesPanic fsFilteredDrives then
        .panicked "slice bounds out of range"
      else
        .ok fsFilteredDrives

/-- Lookup of a key in a drive's topology segment map. -/
def lookupSeg (k : String) (segs : List (String × String)) : Option String :=
  (segs.find? fun kv => kv.1 == k).map (·.2)

/-- `matchSegments`: every requested segment must be present with the same
value in the drive's segments (the Go loop breaks at the first mismatch, so
over a duplicate-free map it computes exactly this conjunction). -/
def matchSegments (topSegments driveSegments : List (String × String)) : Bool :=
  topSegments.all fun kv => lookupSeg kv.1 driveSegments == some kv.2

/-- `selectDriveByTopology`: first drive in the list whose segments
superset-match the requested topology. -/
def selectDriveByTopology (top : List (String × String))
    (csiDrives : List Drive) : Option Drive :=
  csiDrives.find? fun d => matchSegments top d.topology

/-- Insertion step of the stable descending sort: place `d` before the
first element whose free capacity does not exceed `d`'s. -/
def insertByFreeCapacity (d : Drive) : List Drive → List Drive
  | [] => [d]
  | x :: xs =>
    if x.freeCapacity ≤ d.freeCapacity then d :: x :: xs
    else x :: insertByFreeCapacity d xs

/-- `sort.SliceStable(csiDrives, λ i j, cap i > cap j)`: the stable sort by
free capacity descending, as a stable insertion sort (the stable sort for a
given comparator is unique, so this computes the same list). -/
def sortByFreeCapacityDesc : List Drive → List Drive
  | [] => []
  | x :: xs => insertByFreeCapacity x (sortByFreeCapacityDesc xs)

/-- First match over a list of topologies tried in order. -/
def firstTopologyMatch (tops : List (List (String × String)))
    (csiDrives : List Drive) : Option Drive :=
  match tops with
  | [] => none
  | t :: ts =>
    match selectDriveByTopology t csiDrives with
    | some d => some d
    | none => firstTopologyMatch ts csiDrives

/-- `FilterDrivesByTopologyRequirements`: sort descending by free capacity,
try each preferred topology in order, then each requisite topology; when
both lists are empty return the head of the sorted list (the Go code
indexes `csiDrives[0]`, which panics on an empty slice; that branch is
modelled as an internal error). -/
def FilterDrivesByTopologyRequirements
    (preferredXs requisiteXs : List (List (String × String)))
    (csiDrives : List Drive) : Except (Code × String) Drive :=
  let sorted := sortByFreeCapacityDesc csiDrives
  match firstTopologyMatch preferredXs sorted with
  | some d => .ok d
  | none =>
    match firstTopologyMatch requisiteXs sorted with
    | some d => .ok d
    | none =>
      if preferredXs.isEmpty && requisiteXs.isEmpty then
        match sorted with
        | d :: _ => .ok d
        | [] => .error (.internal, "index out of range")
      else
        .error (.resourceExhausted, "Cannot satisfy the topology constraint")

end Ctrl

namespace Ctrl

/-- Membership is preserved by the insertion step. -/
theorem mem_insertByFreeCapacity (y d : Drive) (l : List Drive) :
    y ∈ insertByFreeCapacity d l ↔ y = d ∨ y ∈ l := by
  induction l with
  | nil => simp [insertByFreeCapacity]
  | cons x xs ih =>
    by_cases h : x.freeCapacity ≤ d.freeCapacity
    · simp [insertByFreeCapacity, h]
    · simp only [insertByFreeCapacity, if_neg h, List.mem_cons, ih]
      tauto

/-- The insertion step produces a permutation of consing. -/
theorem insertByFreeCapacity_perm (d : Drive) (l : List Drive) :
    (insertByFreeCapacity d l).Perm (d :: l) := by
  induction l with
  | nil => simp [insertByFreeCapacity]
  | cons x xs ih =>
    by_cases h : x.freeCapacity ≤ d.freeCapacity
    · simp [insertByFreeCapacity, h]
    · simp only [insertByFreeCapacity, if_neg h]
      exact (List.Perm.cons x ih).trans (List.Perm.swap d x xs)

/-- The sort is a permutation of its input. -/
theorem sortByFreeCapacityDesc_perm (l : List Drive) :
    (sortByFreeCapacityDesc l).Perm l := by
  induction l with
  | nil => simp [sortByFreeCapacityDesc]
  | cons x xs ih =>
    exact (insertByFreeCapacity_perm x _).trans (List.Perm.cons x ih)

/-- The insertion step preserves descending order by free capacity. -/
theorem insertByFreeCapacity_pairwise (d : Drive) (l : List Drive)
    (h : l.Pairwise fun a b => b.freeCapacity ≤ a.freeCapacity) :
    (insertByFreeCapacity d l).Pairwise fun a b => b.freeCapacity ≤ a.freeCapacity := by
  induction l with
  | nil => simp [insertByFreeCapacity]
  | cons x xs ih =>
    rcases List.pairwise_cons.mp h with ⟨hx, hxs⟩
    by_cases hc : x.freeCapacity ≤ d.freeCapacity
    · simp only [insertByFreeCapacity, if_pos hc]
      refine List.pairwise_cons.mpr ⟨?_, h⟩
      intro y hy
      rcases List.mem_cons.mp hy with rfl | hy
      · exact hc
      · exact le_trans (hx y hy) hc
    · simp only [insertByFreeCapacity, if_neg hc]
      refine List.pairwise_cons.mpr ⟨?_, ih hxs⟩
      intro y hy
      rcases (mem_insertByFreeCapacity y d xs).mp hy with rfl | hy
      · exact le_of_not_le hc
      · exact hx y hy

/-- The sorted list is descending by free capacity. -/
theorem sortByFreeCapacityDesc_pairwise (l : List Drive) :
    (sortByFreeCapacityDesc l).Pairwise fun a b => b.freeCapacity ≤ a.freeCapacity := by
  induction l with
  | nil => simp [sortByFreeCapacityDesc]
  | cons x xs ih => exact insertByFreeCapacity_pairwise x _ ih

/-- Stability of the insertion step: restricted to any one free-capacity
value, inserting is the same as consing. -/
theorem filter_insertByFreeCapacity (c : Int) (d : Drive) (l : List Drive) :
    (insertByFreeCapacity d l).filter (fun x => x.freeCapacity == c) =
      (d :: l).filter (fun x => x.freeCapacity == c) := by
  induction l with
  | nil => rfl
  | cons x xs ih =>
    by_cases hc : x.freeCapacity ≤ d.freeCapacity
    · simp only [insertByFreeCapacity, if_pos hc]
    · simp only [insertByFreeCapacity, if_neg hc]
      have hlt : d.freeCapacity < x.freeCapacity := lt_of_not_le hc
      by_cases pd : d.freeCapacity = c
      · have px : (x.freeCapacity == c) = false := by
          simp only [beq_eq_false_iff_ne, ne_eq]
          omega
        have pdb : (d.freeCapacity == c) = true := by simp [pd]
        simp [List.filter_cons, px, pdb, ih]
      · have pdb : (d.freeCapacity == c) = false := by
          simp only [beq_eq_false_iff_ne, ne_eq]
          exact pd
        simp [List.filter_cons, pdb, ih]

/-- Stability of the sort: the subsequence of drives holding any one
free-capacity value is exactly as in the input, so ties keep input order. -/
theorem sortByFreeCapacityDesc_stable (c : Int) (l : List Drive) :
    (sortByFreeCapacityDesc l).filter (fun x => x.freeCapacity == c) =
      l.filter (fun x => x.freeCapacity == c) := by
  induction l with
  | nil => rfl
  | cons x xs ih =>
    calc (insertByFreeCapacity x (sortByFreeCapacityDesc xs)).filter
            (fun d => d.freeCapacity == c)
        = (x :: sortByFreeCapacityDesc xs).filter (fun d => d.freeCapacity == c) :=
          filter_insertByFreeCapacity c x _
      _ = (x :: xs).filter (fun d => d.freeCapacity == c) := by
          by_cases px : x.freeCapacity = c <;> simp [List.filter, px, ih]

/-- `find?` characterization: a returned drive is the first match. -/
theorem selectDriveByTopology_eq_some (top : List (String × String))
    (l : List Drive) (d : Drive) (h : selectDriveByTopology top l = some d) :
    ∃ pre post, l = pre ++ d :: post
      ∧ (∀ x ∈ pre, matchSegments top x.topology = false)
      ∧ matchSegments top d.topology = true := by
  induction l with
  | nil => simp [selectDriveByTopology] at h
  | cons x xs ih =>
    by_cases hm : matchSegments top x.topology = true
    · rw [selectDriveByTopology,
        List.find?_cons_of_pos (p := fun y : Drive => matchSegments top y.topology) _ hm] at h
      obtain rfl : x = d := by simpa using h
      exact ⟨[], xs, rfl, by simp, hm⟩
    · rw [selectDriveByTopology,
        List.find?_cons_of_neg (p := fun y : Drive => matchSegments top y.topology) _
          (by simpa using hm)] at h
      rcases ih h with ⟨pre, post, rfl, hpre, hd⟩
      refine ⟨x :: pre, post, rfl, ?_, hd⟩
      intro y hy
      rcases List.mem_cons.mp hy with rfl | hy
      · simpa using hm
      · exact hpre y hy

/-- `matchSegments` decides superset containment of the requested
segments in the drive's segments. -/
theorem matchSegments_iff (top segs : List (String × String)) :
    matchSegments top segs = true ↔
      ∀ kv ∈ top, lookupSeg kv.1 segs = some kv.2 := by
  simp [matchSegments, List.all_eq_true]

end Ctrl

/-- Concrete drives for the C4 counterexample: equal free capacity, names
in reverse lexicographic order in the input. -/
def c4DriveB : Ctrl.Drive :=
  { name := "b", nodeName := "n", driveStatus := "ready",
    freeCapacity := 100, filesystem := "xfs", topology := [] }

def c4DriveA : Ctrl.Drive :=
  { name := "a", nodeName := "n", driveStatus := "ready",
    freeCapacity := 100, filesystem := "xfs", topology := [] }

/-- C4 counterexample: with two surviving drives of equal free capacity and
no topology constraints, selection returns the input-order head "b", not
the lexicographically smaller name "a" — ties are not broken by drive
name. -/
theorem c4_counterexample :
    Ctrl.FilterDrivesByTopologyRequirements [] [] [c4DriveB, c4DriveA] = .ok c4DriveB
    ∧ c4DriveA.freeCapacity = c4DriveB.freeCapacity
    ∧ c4DriveA.name < c4DriveB.name
    ∧ c4DriveA ≠ c4DriveB := by
  refine ⟨rfl, rfl, ?_, by decide⟩
  rw [String.lt_iff_toList_lt]
  decide

/-- C4 (amended): for every non-empty list of surviving drives, selection
stable-sorts by free capacity descending — ties keep input order, with no
lexicographic tie-break on drive name — then returns the first sorted drive
whose topology segments superset-match some Preferred topology (tried in
order), otherwise some Requisite topology, and when both lists are empty
the head of the sorted list. -/
theorem c4_spec (preferredXs requisiteXs : List (List (String × String)))
    (ds : List Ctrl.Drive) (h : ds ≠ []) :
    (Ctrl.sortByFreeCapacityDesc ds).Perm ds
    ∧ (Ctrl.sortByFreeCapacityDesc ds).Pairwise
        (fun a b => b.freeCapacity ≤ a.freeCapacity)
    ∧ (∀ c : Int, (Ctrl.sortByFreeCapacityDesc ds).filter
          (fun d => d.freeCapacity == c) =
        ds.filter (fun d => d.freeCapacity == c))
    ∧ (∀ d, Ctrl.firstTopologyMatch preferredXs (Ctrl.sortByFreeCapacityDesc ds)
          = some d →
        Ctrl.FilterDrivesByTopologyRequirements preferredXs requisiteXs ds = .ok d)
    ∧ (Ctrl.firstTopologyMatch preferredXs (Ctrl.sortByFreeCapacityDesc ds) = none →
       ∀ d, Ctrl.firstTopologyMatch requisiteXs (Ctrl.sortByFreeCapacityDesc ds)
          = some d →
        Ctrl.FilterDrivesByTopologyRequirements preferredXs requisiteXs ds = .ok d)
    ∧ (preferredXs = [] → requisiteXs = [] →
        ∃ d t, Ctrl.sortByFreeCapacityDesc ds = d :: t
          ∧ Ctrl.FilterDrivesByTopologyRequirements preferredXs requisiteXs ds = .ok d)
    ∧ (∀ t l d, Ctrl.selectDriveByTopology t l = some d →
        ∃ pre post, l = pre ++ d :: post
          ∧ (∀ x ∈ pre, Ctrl.matchSegments t x.topology = false)
          ∧ (∀ kv ∈ t, Ctrl.lookupSeg kv.1 d.topology = some kv.2)) := by
  refine ⟨Ctrl.sortByFreeCapacityDesc_perm ds,
    Ctrl.sortByFreeCapacityDesc_pairwise ds,
    fun c => Ctrl.sortByFreeCapacityDesc_stable c ds, ?_, ?_, ?_, ?_⟩
  · intro d hfm
    simp only [Ctrl.FilterDrivesByTopologyRequirements, hfm]
  · intro hp d hr
    simp only [Ctrl.FilterDrivesByTopologyRequirements, hp, hr]
  · rintro rfl rfl
    have hne : Ctrl.sortByFreeCapacityDesc ds ≠ [] := by
      intro hnil
      exact h (List.Perm.eq_nil ((Ctrl.sortByFreeCapacityDesc_perm ds).symm.trans
        (hnil ▸ List.Perm.refl _)))
    obtain ⟨d, t, hdt⟩ := List.exists_cons_of_ne_nil hne
    refine ⟨d, t, hdt, ?_⟩
    simp [Ctrl.FilterDrivesByTopologyRequirements, Ctrl.firstTopologyMatch, hdt]
  · intro t l d hsel
    obtain ⟨pre, post, rfl, hpre, hd⟩ :=
      Ctrl.selectDriveByTopology_eq_some t l d hsel
    exact ⟨pre, post, rfl, hpre, (Ctrl.matchSegments_iff t d.topology).mp hd⟩

/-- Concrete drive for the C4 witness. -/
def c4WitnessDrive : Ctrl.Drive :=
  { name := "w1", nodeName := "n", driveStatus := "ready",
    freeCapacity := 7, filesystem := "xfs", topology := [] }

/-- Witness for C4: instantiating the amended theorem at a singleton drive
list with empty topology requirements. -/
theorem c4_witness :
    ∃ d t, Ctrl.sortByFreeCapacityDesc [c4WitnessDrive] = d :: t
      ∧ Ctrl.FilterDrivesByTopologyRequirements [] [] [c4WitnessDrive] = .ok d :=
  (c4_spec [] [] [c4WitnessDrive] (by simp)).2.2.2.2.2.1 rfl rfl

namespace Ctrl

/-- The capacity gate only keeps drives from its input. -/
theorem mem_FilterDrivesByCapacityRange (reqBytes : Int) (l : List Drive)
    (d : Drive) (h : d ∈ FilterDrivesByCapacityRange reqBytes l) : d ∈ l :=
  (List.mem_filter.mp h).1

/-- The filesystem gate only keeps drives from its input. -/
theorem mem_FilterDrivesByFsType (fsType : String) (l : List Drive)
    (d : Drive) (h : d ∈ FilterDrivesByFsType fsType l) : d ∈ l := by
  unfold FilterDrivesByFsType at h
  by_cases hfs : fsType = ""
  · rw [if_pos hfs] at h
    exact h
  · rw [if_neg hfs] at h
    exact (List.mem_filter.mp h).1

/-- A sublist of a panic-free drive list logs without panicking. -/
theorem logNamesPanic_sub (l1 l2 : List Drive) (hsub : ∀ d ∈ l2, d ∈ l1)
    (h1 : logNamesPanic l1 = false) : logNamesPanic l2 = false := by
  rw [logNamesPanic, List.any_eq_false] at h1 ⊢
  intro d hd
  exact h1 d (hsub d hd)

end Ctrl

/-- Concrete input for the C5 counterexample: one Ready drive with free
capacity 10, whose 8-byte name survives the logging loop, and a request of
100 required bytes. -/
def c5Drive : Ctrl.Drive :=
  { name := "drive5xx", nodeName := "n5", driveStatus := "ready",
    freeCapacity := 10, filesystem := "xfs", topology := [] }

def c5Req : Ctrl.CreateVolumeRequest :=
  { capacityRange := some { requiredBytes := 100, limitBytes := 0 },
    volumeCapabilities := [], preferred := [], requisite := [] }

/-- The same drive with a 2-byte name: the first logging loop's
`f.Name[0:8]` slice panics before the capacity gate is reached. -/
def c5ShortDrive : Ctrl.Drive :=
  { name := "d5", nodeName := "n5", driveStatus := "ready",
    freeCapacity := 10, filesystem := "xfs", topology := [] }

/-- C5 counterexample: an empty result after the capacity gate (no drive
holds the required 100 bytes; the drive name is 8 bytes long so the
logging loop does not panic) surfaces `OutOfRange`, which is neither
`FailedPrecondition` nor `ResourceExhausted` — and with a name shorter
than 8 bytes the pipeline panics in the logging loop instead of returning
any code at all. -/
theorem c5_counterexample :
    Ctrl.FilterDrivesByVolumeRequest c5Req [c5Drive] =
      .errored Code.outOfRange "Invalid capacity range"
    ∧ Code.outOfRange ≠ Code.failedPrecondition
    ∧ Code.outOfRange ≠ Code.resourceExhausted
    ∧ Ctrl.FilterDrivesByVolumeRequest c5Req [c5ShortDrive] =
        .panicked "slice bounds out of range" := by
  exact ⟨rfl, by decide, by decide, rfl⟩

/-- C5 (amended): each stage of the drive-filter pipeline surfaces its own
gRPC code when it empties the candidate list — format gate:
`FailedPrecondition`; capacity gate: `OutOfRange`; filesystem gate:
`InvalidArgument` — except that after every non-empty gate the logging
loop slices each surviving drive name to 8 bytes and panics when some name
is shorter; absent such short names, when all three stages keep at least
one drive the pipeline returns the filesystem-filtered list.
(`ResourceExhausted` is produced only later, by the topology selection.) -/
theorem c5_spec (volReq : Ctrl.CreateVolumeRequest) (ds : List Ctrl.Drive) :
    (Ctrl.FilterDrivesByRequestFormat ds = [] →
      Ctrl.FilterDrivesByVolumeRequest volReq ds =
        .errored Code.failedPrecondition
          "No csi drives are been added. Please use add drives plugin command to add the drives")
    ∧ (Ctrl.FilterDrivesByRequestFormat ds ≠ [] →
       Ctrl.logNamesPanic (Ctrl.FilterDrivesByRequestFormat ds) = true →
      Ctrl.FilterDrivesByVolumeRequest volReq ds =
        .panicked "slice bounds out of range")
    ∧ (Ctrl.FilterDrivesByRequestFormat ds ≠ [] →
       Ctrl.logNamesPanic (Ctrl.FilterDrivesByRequestFormat ds) = false →
       Ctrl.FilterDrivesByCapacityRange (Ctrl.requiredBytes volReq)
          (Ctrl.FilterDrivesByRequestFormat ds) = [] →
      Ctrl.FilterDrivesByVolumeRequest volReq ds =
        .errored Code.outOfRange "Invalid capacity range")
    ∧ (Ctrl.FilterDrivesByRequestFormat ds ≠ [] →
       Ctrl.logNamesPanic (Ctrl.FilterDrivesByRequestFormat ds) = false →
       Ctrl.FilterDrivesByCapacityRange (Ctrl.requiredBytes volReq)
          (Ctrl.FilterDrivesByRequestFormat ds) ≠ [] →
       Ctrl.FilterDrivesByFsType (Ctrl.requestFsType volReq)
          (Ctrl.FilterDrivesByCapacityRange (Ctrl.requiredBytes volReq)
            (Ctrl.FilterDrivesByRequestFormat ds)) = [] →
      Ctrl.FilterDrivesByVolumeRequest volReq ds =
        .errored Code.invalidArgument
          ("Cannot find any drives by the fstype: " ++ Ctrl.requestFsType volReq))
    ∧ (Ctrl.FilterDrivesByRequestFormat ds ≠ [] →
       Ctrl.logNamesPanic (Ctrl.FilterDrivesByRequestFormat ds) = false →
       Ctrl.FilterDrivesByCapacityRange (Ctrl.requiredBytes volReq)
          (Ctrl.FilterDrivesByRequestFormat ds) ≠ [] →
       Ctrl.FilterDrivesByFsType (Ctrl.requestFsType volReq)
          (Ctrl.FilterDrivesByCapacityRange (Ctrl.requiredBytes volReq)
            (Ctrl.FilterDrivesByRequestFormat ds)) ≠ [] →
      Ctrl.FilterDrivesByVolumeRequest volReq ds =
        .ok (Ctrl.FilterDrivesByFsType (Ctrl.requestFsType volReq)
          (Ctrl.FilterDrivesByCapacityRange (Ctrl.requiredBytes volReq)
            (Ctrl.FilterDrivesByRequestFormat ds)))) := by
  have hcapLog : Ctrl.logNamesPanic (Ctrl.FilterDrivesByRequestFormat ds) = false →
      Ctrl.logNamesPanic (Ctrl.FilterDrivesByCapacityRange
        (Ctrl.requiredBytes volReq) (Ctrl.FilterDrivesByRequestFormat ds)) = false :=
    fun h => Ctrl.logNamesPanic_sub _ _
      (fun d hd => Ctrl.mem_FilterDrivesByCapacityRange _ _ d hd) h
  have hfsLog : Ctrl.logNamesPanic (Ctrl.FilterDrivesByRequestFormat ds) = false →
      Ctrl.logNamesPanic (Ctrl.FilterDrivesByFsType (Ctrl.requestFsType volReq)
        (Ctrl.FilterDrivesByCapacityRange (Ctrl.requiredBytes volReq)
          (Ctrl.FilterDrivesByRequestFormat ds))) = false :=
    fun h => Ctrl.logNamesPanic_sub _ _
      (fun d hd => Ctrl.mem_FilterDrivesByCapacityRange _ _ d
        (Ctrl.mem_FilterDrivesByFsType _ _ d hd)) h
  refine ⟨?_, ?_, ?_, ?_, ?_⟩
  · intro h1
    simp [Ctrl.FilterDrivesByVolumeRequest, h1]
  · intro h1 hp
    simp [Ctrl.FilterDrivesByVolumeRequest, h1, hp]
  · intro h1 hp h2
    simp [Ctrl.FilterDrivesByVolumeRequest, h1, hp, h2]
  · intro h1 hp h2 h3
    simp [Ctrl.FilterDrivesByVolumeRequest, h1, hp, hcapLog hp, h2, h3]
  · intro h1 hp h2 h3
    simp [Ctrl.FilterDrivesByVolumeRequest, h1, hp, hcapLog hp, hfsLog hp,
      h2, h3]

/-- Concrete input for the C5 witness: no drive is Ready or InUse. -/
def c5WitnessDrive : Ctrl.Drive :=
  { name := "d5w", nodeName := "n5", driveStatus := "available",
    freeCapacity := 1000, filesystem := "", topology := [] }

/-- Witness for C5: the format gate empties the list and the pipeline
returns `FailedPrecondition`. -/
theorem c5_witness :
    Ctrl.FilterDrivesByVolumeRequest c5Req [c5WitnessDrive] =
      .errored Code.failedPrecondition
        "No csi drives are been added. Please use add drives plugin command to add the drives" :=
  (c5_spec c5Req [c5WitnessDrive]).1 (by decide)

namespace NodeCtl

/-- `Spec.RequestedFormat` of a v1alpha1 `DirectCSIDrive` as used by
`pkg/node/node_controller.go`. -/
structure RequestedFormat where
  filesystem : String
  mountpoint : String
  mountoptions : List String
  force : Bool
deriving Repr, DecidableEq

/-- The `Status` fields of the drive read and written by the node
controller; `driveStatus` carries the v1alpha1 string constants
(`Online = "online"`, `New = "new"`). -/
structure DriveStatusRec where
  nodeName : String
  driveStatus : String
  path : String
  filesystem : String
  mountpoint : String
  mountOptions : List String
  freeCapacity : Int
deriving Repr, DecidableEq

/-- A v1alpha1 `DirectCSIDrive` as consumed by the Update handler. -/
structure Drive where
  name : String
  requestedFormat : RequestedFormat
  status : DriveStatusRec
deriving Repr, DecidableEq

/-- Outcomes of the syscalls and API writes the Update handler performs, in
program order: `filepath.Abs`, `UnmountIfMounted`, first API update,
`FormatDevice`, second API update, `MountDevice`, `syscall.Statfs` (block
size and available blocks on success), third API update. `none` is
success. -/
structure Env where
  absErr : Option String
  unmountErr : Option String
  update1Err : Option String
  formatErr : Option String
  update2Err : Option String
  mountErr : Option String
  statfs : Except String (Int × Int)
  update3Err : Option String
deriving Repr

/-- `filepath.Join(string(filepath.Separator), "mnt", "direct-csi", name)`
(line 117 of `node_controller.go`), for the slash-free object names the
driver produces. -/
def defaultMountPoint (name : String) : String :=
  "/mnt/direct-csi/" ++ name

/-- Lines 75-94: when the drive is mounted, reject unless `force`, else
resolve the path, unmount, clear `Status.Mountpoint` and write the object
back. The boolean is false when the handler returns nil early (reject). -/
def unmountStage (env : Env) (new : Drive) : Except String (Bool × Drive) :=
  if new.status.mountpoint = "" then .ok (true, new)
  else if new.requestedFormat.force = false then .ok (false, new)
  else
    match env.absErr with
    | some e => .error e
    | none =>
      match env.unmountErr with
      | some e => .error e
      | none =>
        let new1 : Drive :=
          { new with status := { new.status with mountpoint := "" } }
        match env.update1Err with
        | some e => .error e
        | none => .ok (true, new1)

/-- Lines 72-112: the format branch, run when a filesystem is requested:
unmount stage, reject an already-formatted drive unless `force`, format the
device, then record filesystem, drive status `"new"`, cleared request
filesystem, cleared mountpoint and options, and write the object back. -/
def formatStage (env : Env) (fsType : String) (new : Drive) :
    Except String (Bool × Drive) :=
  if fsType = "" then .ok (true, new)
  else
    match unmountStage env new with
    | .error e => .error e
    | .ok (false, new1) => .ok (false, new1)
    | .ok (true, new1) =>
      if new1.status.filesystem ≠ "" ∧ new1.requestedFormat.force = false then
        .ok (false, new1)
      else
        match env.formatErr with
        | some e => .error ("Failed to format the device: " ++ e)
        | none =>
          let new2 : Drive :=
            { new1 with
              requestedFormat := { new1.requestedFormat with filesystem := "" },
              status := { new1.status with
                filesystem := fsType, driveStatus := "new",
                mountpoint := "", mountOptions := [] } }
          match env.update2Err with
          | some e => .error e
          | none => .ok (true, new2)

/-- Lines 114-138: when the drive has no mountpoint, pick the requested
mountpoint or the default, mount, then record the mountpoint, clear the
request fields, compute free capacity from statfs, and write the object
back. -/
def mountStage (env : Env) (new : Drive) : Except String Drive :=
  if new.status.mountpoint = "" then
    let mountPoint :=
      if new.requestedFormat.mountpoint = "" then defaultMountPoint new.name
      else new.requestedFormat.mountpoint
    match env.mountErr with
    | some e => .error ("Failed to mount the device: " ++ e)
    | none =>
      let new1 : Drive :=
        { new with
          requestedFormat := { new.requestedFormat with
            force := false, mountpoint := "", mountoptions := [] },
          status := { new.status with mountpoint := mountPoint } }
      match env.statfs with
      | .error e => .error e
      | .ok (bsize, bavail) =>
        let new2 : Drive :=
          { new1 with status :=
            { new1.status with freeCapacity := bsize * bavail } }
        match env.update3Err with
        | some e => .error e
        | none => .ok new2
  else .ok new

/-- `DirectCSIDriveListener.Update` (`node_controller.go` lines 54-142):
skip drives of other nodes, skip when nothing is requested, refuse drives
in use (status Online), then run the format and mount stages. The returned
drive is the state as last written to the API. -/
def update (nodeID : String) (env : Env) (new : Drive) : Except String Drive :=
  if nodeID ≠ new.status.nodeName then .ok new
  else if new.requestedFormat.filesystem = "" ∧ new.requestedFormat.mountpoint = "" then
    .ok new
  else if new.status.driveStatus = "online" then .ok new
  else
    let fsType := new.requestedFormat.filesystem
    match formatStage env fsType new with
    | .error e => .error e
    | .ok (false, new1) => .ok new1
    | .ok (true, new1) => mountStage env new1

end NodeCtl

/-- All-success oracle for the C1 runs, with statfs reporting block size
4096 and 25 available blocks. -/
def c1Env : NodeCtl.Env :=
  { absErr := none, unmountErr := none, update1Err := none,
    formatErr := none, update2Err := none, mountErr := none,
    statfs := .ok (4096, 25), update3Err := none }

/-- A drive of this node with empty mountpoint, empty requested mountpoint
and a requested filesystem. -/
def c1Drive : NodeCtl.Drive :=
  { name := "d1",
    requestedFormat :=
      { filesystem := "xfs", mountpoint := "", mountoptions := [], force := false },
    status :=
      { nodeName := "n1", driveStatus := "", path := "/dev/sda",
        filesystem := "", mountpoint := "", mountOptions := [],
        freeCapacity := 0 } }

/-- C1 counterexample: for a drive with empty `Status.Mountpoint` and empty
`RequestedFormat.Mountpoint`, the node controller records
`/mnt/direct-csi/<driveName>`, not `/var/lib/direct-csi/mnt/<driveName>`
as the claim states. -/
theorem c1_counterexample :
    ((NodeCtl.update "n1" c1Env c1Drive).map fun d => d.status.mountpoint)
      = .ok "/mnt/direct-csi/d1"
    ∧ "/mnt/direct-csi/d1" ≠ "/var/lib/direct-csi/mnt/d1" := by
  exact ⟨rfl, by decide⟩

/-- The drive state written back by a fully successful format-and-mount
reconciliation. -/
def c1FinalDrive (d : NodeCtl.Drive) (bsize bavail : Int) : NodeCtl.Drive :=
  { name := d.name,
    requestedFormat :=
      { filesystem := "", mountpoint := "", mountoptions := [], force := false },
    status :=
      { nodeName := d.status.nodeName, driveStatus := "new",
        path := d.status.path, filesystem := d.requestedFormat.filesystem,
        mountpoint := "/mnt/direct-csi/" ++ d.name, mountOptions := [],
        freeCapacity := bsize * bavail } }

/-- C1 (amended): when the node drive controller reconciles a drive of this
node whose `Status.Mountpoint` and `RequestedFormat.Mountpoint` are empty,
with a filesystem requested (otherwise the handler returns at once), the
drive not Online, no format rejection, and all operations succeeding, the
mountpoint it picks and records is `/mnt/direct-csi/<driveName>`; it
computes `FreeCapacity` as statfs block size times available blocks and
clears all request fields. -/
theorem c1_spec (nodeID : String) (env : NodeCtl.Env) (d : NodeCtl.Drive)
    (bsize bavail : Int)
    (hnode : nodeID = d.status.nodeName)
    (hreqmp : d.requestedFormat.mountpoint = "")
    (hfs : d.requestedFormat.filesystem ≠ "")
    (honline : d.status.driveStatus ≠ "online")
    (hmp : d.status.mountpoint = "")
    (hnoReject : d.status.filesystem = "" ∨ d.requestedFormat.force = true)
    (hfmt : env.formatErr = none) (hu2 : env.update2Err = none)
    (hmnt : env.mountErr = none) (hstat : env.statfs = .ok (bsize, bavail))
    (hu3 : env.update3Err = none) :
    ∃ d', NodeCtl.update nodeID env d = .ok d'
      ∧ d'.status.mountpoint = "/mnt/direct-csi/" ++ d.name
      ∧ d'.status.freeCapacity = bsize * bavail
      ∧ d'.requestedFormat.filesystem = ""
      ∧ d'.requestedFormat.mountpoint = ""
      ∧ d'.requestedFormat.mountoptions = []
      ∧ d'.requestedFormat.force = false := by
  have hrej : ¬ (d.status.filesystem ≠ "" ∧ d.requestedFormat.force = false) := by
    rcases hnoReject with h1 | h1 <;> simp [h1]
  refine ⟨c1FinalDrive d bsize bavail, ?_, rfl, rfl, rfl, rfl, rfl, rfl⟩
  simp [NodeCtl.update, NodeCtl.formatStage, NodeCtl.unmountStage,
    NodeCtl.mountStage, NodeCtl.defaultMountPoint, c1FinalDrive, hnode, hreqmp,
    hfs, honline, hmp, hrej, hfmt, hu2, hmnt, hstat, hu3]

/-- Witness for C1: the amended theorem instantiated at the concrete drive
`c1Drive` under the all-success oracle. -/
theorem c1_witness :
    ∃ d', NodeCtl.update "n1" c1Env c1Drive = .ok d'
      ∧ d'.status.mountpoint = "/mnt/direct-csi/" ++ c1Drive.name
      ∧ d'.status.freeCapacity = 4096 * 25
      ∧ d'.requestedFormat.filesystem = ""
      ∧ d'.requestedFormat.mountpoint = ""
      ∧ d'.requestedFormat.mountoptions = []
      ∧ d'.requestedFormat.force = false :=
  c1_spec "n1" c1Env c1Drive 4096 25 rfl rfl (by decide) (by decide) rfl
    (Or.inl rfl) rfl rfl rfl rfl rfl

namespace Disc

/-- The fields of `sys.Device` consumed by `toDirectCSIDrive`
(`pkg/node/discovery.go`). -/
structure Device where
  name : String
  path : String
  mountPoints : List String
  firstMountPoint : String
  firstMountOptions : List String
  fsType : String
  err : String
  freeCapacity : Int
  totalCapacity : Int
  logicalBlockSize : Int
  physicalBlockSize : Int
  model : String
  serial : String
deriving Repr, DecidableEq

/-- The v1beta2 drive statuses produced by discovery. -/
inductive DriveStatus where
  | available
  | unavailable
deriving Repr, DecidableEq

/-- A drive condition: type, boolean status, message, reason. -/
structure Condition where
  condType : String
  status : Bool
  message : String
  reason : String
deriving Repr, DecidableEq

/-- The status of the `DirectCSIDrive` object produced by discovery. -/
structure DriveObjStatus where
  driveStatus : DriveStatus
  filesystem : String
  freeCapacity : Int
  allocatedCapacity : Int
  mountpoint : String
  nodeName : String
  path : String
  conditions : List Condition
deriving Repr, DecidableEq

/-- The `DirectCSIDrive` object produced by discovery, up to the fields the
claim concerns (`objName` stands for the sha256 hex digest of
`<nodeID>-<path>` computed by `makeName`; the digest itself is outside the
model and irrelevant to the drive status). -/
structure DirectCSIDrive where
  objName : String
  status : DriveObjStatus
deriving Repr, DecidableEq

/-- `isMountedOutside` (`discovery.go` lines 41-48): true when some mount
point lacks the `/var/lib/direct-csi/` path start. -/
def isMountedOutside (mountPoints : List String) : Bool :=
  mountPoints.any fun mountPoint => ! strHasPrefix mountPoint "/var/lib/direct-csi/"

/-- `toDirectCSIDrive` (`discovery.go` lines 50-118), restricted to the
modelled fields. -/
def toDirectCSIDrive (nodeID : String) (device : Device) : DirectCSIDrive :=
  let driveStatus : DriveStatus :=
    if isMountedOutside device.mountPoints || device.err != "" then .unavailable
    else .available
  let blockInitializationStatus : Bool := device.err == ""
  let mounted : Bool := device.firstMountPoint != ""
  let formatted : Bool := device.fsType != ""
  { objName := nodeID ++ "-" ++ device.path,
    status :=
      { driveStatus := driveStatus,
        filesystem := device.fsType,
        freeCapacity := device.freeCapacity,
        allocatedCapacity := device.totalCapacity - device.freeCapacity,
        mountpoint := device.firstMountPoint,
        nodeName := nodeID,
        path := device.path,
        conditions :=
          [ { condType := "Owned", status := false, message := "",
              reason := "NotAdded" },
            { condType := "Mounted", status := mounted,
              message := device.firstMountPoint, reason := "NotAdded" },
            { condType := "Formatted", status := formatted, message := "xfs",
              reason := "NotAdded" },
            { condType := "Initialized", status := blockInitializationStatus,
              message := device.err, reason := "Initialized" } ] } }

end Disc

/-- C7: for every probed device, if any reported mount point lies outside
the `/var/lib/direct-csi/` path start, the discovered drive has status
Unavailable; otherwise, absent a device error, it is Available. -/
theorem c7_spec (nodeID : String) (device : Disc.Device) :
    ((∃ mp ∈ device.mountPoints, strHasPrefix mp "/var/lib/direct-csi/" = false) →
      (Disc.toDirectCSIDrive nodeID device).status.driveStatus = .unavailable)
    ∧ ((∀ mp ∈ device.mountPoints, strHasPrefix mp "/var/lib/direct-csi/" = true) →
       device.err = "" →
      (Disc.toDirectCSIDrive nodeID device).status.driveStatus = .available) := by
  constructor
  · rintro ⟨mp, hmem, hmp⟩
    have houts : Disc.isMountedOutside device.mountPoints = true := by
      simp only [Disc.isMountedOutside, List.any_eq_true]
      exact ⟨mp, hmem, by simp [hmp]⟩
    simp [Disc.toDirectCSIDrive, houts]
  · intro hall herr
    have houts : Disc.isMountedOutside device.mountPoints = false := by
      simp only [Disc.isMountedOutside, List.any_eq_false]
      intro mp hmem
      simp [hall mp hmem]
    simp [Disc.toDirectCSIDrive, houts, herr]

/-- Concrete device for the C7 witness: mounted at a path outside the
managed tree. -/
def c7Device : Disc.Device :=
  { name := "sda", path := "/dev/sda", mountPoints := ["/home"],
    firstMountPoint := "/home", firstMountOptions := ["rw"], fsType := "ext4",
    err := "", freeCapacity := 10, totalCapacity := 20,
    logicalBlockSize := 512, physicalBlockSize := 512,
    model := "m", serial := "s" }

/-- Witness for C7: a device mounted at `/home` is discovered as
Unavailable. -/
theorem c7_witness :
    (Disc.toDirectCSIDrive "n1" c7Device).status.driveStatus = .unavailable :=
  (c7_spec "n1" c7Device).1 ⟨"/home", by decide, by decide⟩

namespace NodeSrv

/-- A volume condition: type, boolean status, reason. -/
structure Condition where
  condType : String
  status : Bool
  reason : String
deriving Repr, DecidableEq

/-- The v1beta1 `DirectCSIVolume` status fields used by stage/unstage
(`pkg/node/stage_unstage.go`). -/
structure Volume where
  name : String
  drive : String
  totalCapacity : Int
  stagingPath : String
  hostPath : String
  conditions : List Condition
deriving Repr, DecidableEq

/-- The drive fields used by staging. -/
structure DriveObj where
  name : String
  mountpoint : String
deriving Repr, DecidableEq

/-- The kernel-visible bind-mount table: pairs of (source, target). -/
structure MountState where
  mounts : List (String × String)
deriving Repr, DecidableEq

/-- Modelled from the spec: `sys.SafeMount` (`pkg/sys`) is not under the
sources provided; the spec states "`Mount(src, dst, fsType, options)` is
idempotent: if `dst` is already a mount of `src`, it returns success".  The
boolean reports whether a mount syscall was performed. -/
def SafeMount (src dst : String) (st : MountState) : MountState × Bool :=
  if st.mounts.contains (src, dst) then (st, false)
  else ({ mounts := (src, dst) :: st.mounts }, true)

/-- Outcomes of the side effects of `NodeStageVolume`, in program order:
`os.MkdirAll`, the XFS quota call inside `MountVolume`, and the API volume
update. `none` is success. -/
structure StageEnv where
  volumes : List (String × Volume)
  drives : List (String × DriveObj)
  mkdirErr : Option String
  quotaErr : Option String
  updateErr : Option String
deriving Repr, DecidableEq

/-- Association-list lookup standing for the typed client `Get`. -/
def lookup (key : String) : List (String × α) → Option α
  | [] => none
  | (k, v) :: rest => if k = key then some v else lookup key rest

/-- `mountVolume` (`pkg/node/utils.go` lines 457-483): bind-mount through
`SafeMount` with the `prjquota` option, then set the XFS project quota when
the size is positive. The boolean reports whether a mount syscall was
performed. -/
def mountVolume (env : StageEnv) (src dest vID : String) (size : Int)
    (st : MountState) : Except String (MountState × Bool) :=
  let r := SafeMount src dest st
  if 0 < size then
    match env.quotaErr with
    | some e => .error ("Error while setting xfs limits: " ++ e)
    | none => .ok r
  else .ok r

/-- Result of a successful `NodeStageVolume`: the new mount table, the
number of mount syscalls performed, the number of `MountVolume`
invocations made by the handler, and the volume object as written back. -/
structure StageResult where
  state : MountState
  mountSyscalls : Nat
  mountVolumeCalls : Nat
  volume : Volume
deriving Repr, DecidableEq

/-- Condition rewrite performed by staging: Ready becomes true with reason
Ready, Staged becomes true with reason InUse, Published is untouched. -/
def stageConditions (conditions : List Condition) : List Condition :=
  conditions.map fun c =>
    if c.condType = "Ready" then { c with status := true, reason := "Ready" }
    else if c.condType = "Staged" then { c with status := true, reason := "InUse" }
    else c

/-- `NodeServer.NodeStageVolume` (`stage_unstage.go` lines 37-99): validate
the request, look up the volume (any error surfaces as NotFound), look up
its drive (same), build `hostPath = <drive.Mountpoint>/<vID>`, create it,
call `MountVolume`, rewrite conditions and record HostPath and StagingPath.
There is no comparison of the recorded StagingPath with the request. -/
def NodeStageVolume (env : StageEnv) (st : MountState)
    (vID stagingTargetPath : String) :
    Except (Option Code × String) StageResult :=
  if vID = "" then
    .error (some .invalidArgument, "volume ID missing in request")
  else if stagingTargetPath = "" then
    .error (some .invalidArgument, "stagingTargetPath missing in request")
  else
    match lookup vID env.volumes with
    | none => .error (some .notFound, "volume not found")
    | some vol =>
      match lookup vol.drive env.drives with
      | none => .error (some .notFound, "drive not found")
      | some drive =>
        let path := drive.mountpoint ++ "/" ++ vID
        match env.mkdirErr with
        | some e => .error (none, e)
        | none =>
          match mountVolume env path stagingTargetPath vID vol.totalCapacity st with
          | .error e => .error (some .internal, "failed stage volume: " ++ e)
          | .ok (st1, didSyscall) =>
            let vol1 : Volume :=
              { vol with
                conditions := stageConditions vol.conditions,
                hostPath := path, stagingPath := stagingTargetPath }
            match env.updateErr with
            | some e => .error (none, e)
            | none =>
              .ok { state := st1,
                    mountSyscalls := if didSyscall then 1 else 0,
                    mountVolumeCalls := 1, volume := vol1 }

/-- Result of the volume `Get` inside `NodeUnstageVolume`. -/
inductive GetResult where
  | found (vol : Volume)
  | notFound
  | otherErr (msg : String)
deriving Repr, DecidableEq

/-- Side-effect outcomes for `NodeUnstageVolume`: the volume lookup, the
unmount of the staging path, the API update. -/
structure UnstageEnv where
  get : GetResult
  unmountErr : Option String
  updateErr : Option String
deriving Repr, DecidableEq

/-- Result of a successful `NodeUnstageVolume`: the volume as written back
(none when the lookup returned NotFound and nothing was written) and the
list of paths unmounted. -/
structure UnstageResult where
  volume : Option Volume
  unmounted : List String
deriving Repr, DecidableEq

/-- Condition rewrite performed by unstaging: Staged becomes false with
reason NotInUse; Published and Ready are untouched. -/
def unstageConditions (conditions : List Condition) : List Condition :=
  conditions.map fun c =>
    if c.condType = "Staged" then { c with status := false, reason := "NotInUse" }
    else c

/-- `NodeServer.NodeUnstageVolume` (`stage_unstage.go` lines 101-149):
validate the request; a NotFound lookup is success; otherwise unmount the
staging path, set Staged to false, clear HostPath and StagingPath, and
write the volume back. -/
def NodeUnstageVolume (env : UnstageEnv) (vID stagingTargetPath : String) :
    Except (Option Code × String) UnstageResult :=
  if vID = "" then
    .error (some .invalidArgument, "volume ID missing in request")
  else if stagingTargetPath = "" then
    .error (some .invalidArgument, "stagingTargetPath missing in request")
  else
    match env.get with
    | .notFound => .ok { volume := none, unmounted := [] }
    | .otherErr e => .error (some .internal, e)
    | .found vol =>
      match env.unmountErr with
      | some e => .error (some .internal, e)
      | none =>
        let vol1 : Volume :=
          { vol with
            conditions := unstageConditions vol.conditions,
            hostPath := "", stagingPath := "" }
        match env.updateErr with
        | some e => .error (none, e)
        | none => .ok { volume := some vol1, unmounted := [stagingTargetPath] }

end NodeSrv

/-- Concrete volume for the C2 runs: already staged at `/staging/V`. -/
def c2Vol : NodeSrv.Volume :=
  { name := "V", drive := "D", totalCapacity := 100,
    stagingPath := "/staging/V", hostPath := "/mnt/drive/V",
    conditions :=
      [ { condType := "Staged", status := true, reason := "InUse" },
        { condType := "Published", status := false, reason := "NotInUse" },
        { condType := "Ready", status := true, reason := "Ready" } ] }

def c2DriveObj : NodeSrv.DriveObj := { name := "D", mountpoint := "/mnt/drive" }

/-- Mount table after the first, successful staging. -/
def c2State : NodeSrv.MountState :=
  { mounts := [("/mnt/drive/V", "/staging/V")] }

/-- Environment for the C2 counterexample: everything as after a successful
first staging, but the quota call fails. -/
def c2EnvQuotaFail : NodeSrv.StageEnv :=
  { volumes := [("V", c2Vol)], drives := [("D", c2DriveObj)],
    mkdirErr := none, quotaErr := some "boom", updateErr := none }

/-- C2 counterexample: the recorded StagingPath already equals the
requested staging path, yet the second `NodeStageVolume` call does not
return success — the handler performs no StagingPath comparison and
proceeds into `MountVolume`, whose quota step can fail. -/
theorem c2_counterexample :
    c2Vol.stagingPath = "/staging/V"
    ∧ NodeSrv.NodeStageVolume c2EnvQuotaFail c2State "V" "/staging/V" =
        .error (some Code.internal,
          "failed stage volume: Error while setting xfs limits: boom") := by
  exact ⟨rfl, rfl⟩

/-- C2 (amended): `NodeStageVolume` never compares the recorded StagingPath
with the request; a repeated call with the same arguments still invokes
`MountVolume` and rewrites the volume object, and it performs no second
mount syscall only because `SafeMount` (spec-modelled) skips an existing
mount — when the side effects succeed the repeated call returns success
with zero mount syscalls and one `MountVolume` invocation. -/
theorem c2_spec (env : NodeSrv.StageEnv) (st : NodeSrv.MountState)
    (vID sp : String) (vol : NodeSrv.Volume) (drive : NodeSrv.DriveObj)
    (hv : vID ≠ "") (hs : sp ≠ "")
    (hvol : NodeSrv.lookup vID env.volumes = some vol)
    (hdr : NodeSrv.lookup vol.drive env.drives = some drive)
    (hmk : env.mkdirErr = none) (hq : env.quotaErr = none)
    (hu : env.updateErr = none)
    (hmounted : st.mounts.contains (drive.mountpoint ++ "/" ++ vID, sp) = true) :
    NodeSrv.NodeStageVolume env st vID sp =
      .ok { state := st, mountSyscalls := 0, mountVolumeCalls := 1,
            volume :=
              { vol with
                conditions := NodeSrv.stageConditions vol.conditions,
                hostPath := drive.mountpoint ++ "/" ++ vID,
                stagingPath := sp } } := by
  simp only [NodeSrv.NodeStageVolume, if_neg hv, if_neg hs, hvol, hdr, hmk,
    NodeSrv.mountVolume, NodeSrv.SafeMount, hmounted, if_true, hq, hu]
  by_cases hsize : 0 < vol.totalCapacity <;> simp [hsize]

/-- Environment for the C2 witness: the same store with all side effects
succeeding. -/
def c2EnvOk : NodeSrv.StageEnv :=
  { volumes := [("V", c2Vol)], drives := [("D", c2DriveObj)],
    mkdirErr := none, quotaErr := none, updateErr := none }

/-- Witness for C2: the amended theorem at the concrete re-stage input. -/
theorem c2_witness :
    NodeSrv.NodeStageVolume c2EnvOk c2State "V" "/staging/V" =
      .ok { state := c2State, mountSyscalls := 0, mountVolumeCalls := 1,
            volume :=
              { c2Vol with
                conditions := NodeSrv.stageConditions c2Vol.conditions,
                hostPath := "/mnt/drive" ++ "/" ++ "V",
                stagingPath := "/staging/V" } } :=
  c2_spec c2EnvOk c2State "V" "/staging/V" c2Vol c2DriveObj
    (by decide) (by decide) rfl rfl rfl rfl rfl (by decide)

/-- C8: `NodeUnstageVolume` is idempotent on a missing volume — a NotFound
lookup returns success having written and unmounted nothing — and when the
volume exists and the operations succeed it unmounts the staging path,
clears StagingPath and HostPath, and sets the Staged condition to false. -/
theorem c8_spec (env : NodeSrv.UnstageEnv) (vID sp : String)
    (hv : vID ≠ "") (hs : sp ≠ "") :
    (env.get = .notFound →
      NodeSrv.NodeUnstageVolume env vID sp =
        .ok { volume := none, unmounted := [] })
    ∧ (∀ vol, env.get = .found vol → env.unmountErr = none →
        env.updateErr = none →
        ∃ v1, NodeSrv.NodeUnstageVolume env vID sp =
            .ok { volume := some v1, unmounted := [sp] }
          ∧ v1.stagingPath = "" ∧ v1.hostPath = ""
          ∧ ∀ c ∈ v1.conditions, c.condType = "Staged" → c.status = false) := by
  constructor
  · intro hget
    simp [NodeSrv.NodeUnstageVolume, if_neg hv, if_neg hs, hget]
  · intro vol hget hun hup
    refine ⟨{ vol with
        conditions := NodeSrv.unstageConditions vol.conditions,
        hostPath := "", stagingPath := "" }, ?_, rfl, rfl, ?_⟩
    · simp [NodeSrv.NodeUnstageVolume, if_neg hv, if_neg hs, hget, hun, hup]
    · intro c hc hty
      simp only [NodeSrv.unstageConditions, List.mem_map] at hc
      obtain ⟨c0, _, rfl⟩ := hc
      by_cases h0 : c0.condType = "Staged"
      · simp [h0]
      · simp only [if_neg h0] at hty ⊢
        exact absurd hty h0

/-- Environment for the C8 witness: the volume lookup returns NotFound. -/
def c8EnvMissing : NodeSrv.UnstageEnv :=
  { get := .notFound, unmountErr := none, updateErr := none }

/-- Witness for C8: unstaging a missing volume succeeds without
unmounting or writing anything. -/
theorem c8_witness :
    NodeSrv.NodeUnstageVolume c8EnvMissing "V" "/staging/V" =
      .ok { volume := none, unmounted := [] } :=
  (c8_spec c8EnvMissing "V" "/staging/V" (by decide) (by decide)).1 rfl

namespace Lst

/-- The kind of a queued operation (`addOp`, `updateOp`, `deleteOp`). -/
inductive OpKind where
  | add
  | update
  | del
deriving Repr, DecidableEq

/-- A queued operation: its kind, the object key `namespace/name`, and the
identity of the handler function pointer (part of the lock key). The
carried object versions are irrelevant to the queue behaviour. -/
structure Op where
  kind : OpKind
  key : String
  handlerId : String
deriving Repr, DecidableEq

/-- The rate-limiting work queue: the FIFO of pending items and the
per-item failure counts kept by the item-exponential rate limiter. -/
structure RLQueue where
  pending : List Op
  failures : Op → Nat

/-- `queue.AddRateLimited`: re-enqueue the item and bump its failure
count. -/
def addRateLimited (q : RLQueue) (op : Op) : RLQueue :=
  { pending := q.pending ++ [op],
    failures := fun o => if o = op then q.failures o + 1 else q.failures o }

/-- `queue.Forget`: drop the item's failure history. -/
def forget (q : RLQueue) (op : Op) : RLQueue :=
  { q with failures := fun o => if o = op then 0 else q.failures o }

/-- `queue.NumRequeues`. -/
def numRequeues (q : RLQueue) (op : Op) : Nat := q.failures op

/-- `DirectCSIController.processNextItem` (`part_002` lines 236-280): pop
an item, dispatch to the Add/Update/Delete handler under the op lock, and —
when the handler errors — only log the error: the item is neither
re-enqueued nor forgotten, and `handleErr` is never invoked. `none` models
`queue.Get` reporting shutdown. The returned pair is the queue after the
pop and the handler's error. -/
def processNextItem (handler : Op → Option String) (q : RLQueue) :
    Option (RLQueue × Option String) :=
  match q.pending with
  | [] => none
  | op :: rest => some ({ q with pending := rest }, handler op)

/-- `DirectCSIController.handleErr` (`part_002` lines 321-348): on success
forget the item's rate-limit history, on error re-enqueue with the rate
limiter. (Dead code: nothing in the package calls it.) -/
def handleErr (err : Option String) (op : Op) (q : RLQueue) : RLQueue :=
  match err with
  | none => forget q op
  | some _ => addRateLimited q op

end Lst

/-- Concrete op and queue for the C3 counterexample: one pending item with
an existing failure history of 3. -/
def c3Op : Lst.Op := { kind := .update, key := "ns/obj", handlerId := "h1" }

def c3Queue : Lst.RLQueue :=
  { pending := [c3Op], failures := fun o => if o = c3Op then 3 else 0 }

/-- C3 counterexample: popping the only item and having its handler fail
leaves the queue empty — the item is not re-enqueued — and popping it with
a succeeding handler leaves its failure history at 3 — the history is not
forgotten. -/
theorem c3_counterexample :
    (∃ q1, Lst.processNextItem (fun _ => some "boom") c3Queue =
        some (q1, some "boom")
      ∧ q1.pending = [] ∧ Lst.numRequeues q1 c3Op = 3)
    ∧ (∃ q2, Lst.processNextItem (fun _ => none) c3Queue = some (q2, none)
      ∧ q2.pending = [] ∧ Lst.numRequeues q2 c3Op = 3) := by
  refine ⟨⟨{ c3Queue with pending := [] }, rfl, rfl, ?_⟩,
    ⟨{ c3Queue with pending := [] }, rfl, rfl, ?_⟩⟩ <;>
    simp [Lst.numRequeues, c3Queue]

/-- C3 (amended): for every item popped from the work queue,
`processNextItem` dispatches the handler and — whatever the handler
returns — only pops the item: the pending list shrinks by the head and the
failure history is untouched; the requeue-with-rate-limit and
forget-on-success logic exists in `handleErr`, which does behave as the
claim describes, but is never invoked by the worker loop. -/
theorem c3_spec (handler : Lst.Op → Option String) (q : Lst.RLQueue)
    (op : Lst.Op) (rest : List Lst.Op) (h : q.pending = op :: rest) :
    Lst.processNextItem handler q =
      some ({ pending := rest, failures := q.failures }, handler op)
    ∧ (∀ (q2 : Lst.RLQueue) (op2 : Lst.Op) (e : String),
        (Lst.handleErr (some e) op2 q2).pending = q2.pending ++ [op2]
        ∧ Lst.numRequeues (Lst.handleErr (some e) op2 q2) op2 =
            Lst.numRequeues q2 op2 + 1)
    ∧ (∀ (q2 : Lst.RLQueue) (op2 : Lst.Op),
        Lst.numRequeues (Lst.handleErr none op2 q2) op2 = 0) := by
  refine ⟨?_, ?_, ?_⟩
  · simp [Lst.processNextItem, h]
  · intro q2 op2 e
    constructor
    · simp [Lst.handleErr, Lst.addRateLimited]
    · simp [Lst.handleErr, Lst.addRateLimited, Lst.numRequeues]
  · intro q2 op2
    simp [Lst.handleErr, Lst.forget, Lst.numRequeues]

/-- Witness for C3: the amended theorem at the concrete queue. -/
theorem c3_witness :
    Lst.processNextItem (fun _ => some "boom") c3Queue =
      some ({ pending := [], failures := c3Queue.failures }, some "boom") :=
  (c3_spec (fun _ => some "boom") c3Queue c3Op [] rfl).1


namespace Sys

/-- The device record built by `parseUevent` (`part_000` lines 634-641). -/
structure BlockDevice where
  devname : String
  devtype : String
  major : Nat
  minor : Nat
deriving Repr, DecidableEq

/-- Accumulator of the uevent key loop: the last value seen for each of
the four recognized keys, all initially empty. -/
structure UeventAcc where
  major : String
  minor : String
  devname : String
  devtype : String
deriving Repr, DecidableEq

/-- `strconv.ParseUint(s, 10, 32)` as a partial function: non-empty, all
decimal digits, value below 2^32. -/
def parseUint32 (s : String) : Option Nat :=
  if s.length = 0 then none
  else if s.data.all (fun c => c.isDigit) then
    let n := s.data.foldl (fun acc c => acc * 10 + (c.toNat - 48)) 0
    if n < 4294967296 then some n else none
  else none

/-- The per-line loop of `parseUevent` (`part_000` lines 599-622): skip
empty lines; trim, split on `=`; exactly one `KEY=VALUE` pair with a
recognized key updates the accumulator, anything else rejects the entry. -/
def parseUeventLines : List String → UeventAcc → Except String UeventAcc
  | [], acc => .ok acc
  | line :: rest, acc =>
    if line.length = 0 then parseUeventLines rest acc
    else
      match splitStr '=' (trimStr line) with
      | [key, value] =>
        if key = "MAJOR" then parseUeventLines rest { acc with major := value }
        else if key = "MINOR" then
          parseUeventLines rest { acc with minor := value }
        else if key = "DEVNAME" then
          parseUeventLines rest { acc with devname := value }
        else if key = "DEVTYPE" then
          parseUeventLines rest { acc with devtype := value }
        else .error "uevent file format not supported"
      | _ => .error "uevent file format not supported"

/-- `parseUevent` (`part_000` lines 585-642) on the record content (the
file read and the `uevent` basename check precede this in the source; the
claim concerns the record handed to the parser). -/
def parseUevent (content : String) : Except String BlockDevice :=
  match parseUeventLines (splitStr '\n' content) ⟨"", "", "", ""⟩ with
  | .error e => .error e
  | .ok acc =>
    match parseUint32 acc.major with
    | none => .error ("invalid major num: " ++ acc.major)
    | some majorNum =>
      match parseUint32 acc.minor with
      | none => .error ("invalid minor num: " ++ acc.minor)
      | some minorNum =>
        .ok { devname := acc.devname, devtype := acc.devtype,
              major := majorNum, minor := minorNum }

/-- The four keys the parser recognizes. -/
def ueventKeys : List String := ["MAJOR", "MINOR", "DEVNAME", "DEVTYPE"]

/-- Spec-side well-formedness of one line, from the claim's words: the
trimmed line is a single `KEY=VALUE` pair whose key is recognized. -/
def goodUeventLine (line : String) : Bool :=
  match splitStr '=' (trimStr line) with
  | [key, _] => ueventKeys.contains key
  | _ => false

/-- Spec-side accumulation: the last value of each recognized key over the
non-empty lines, bad lines ignored. -/
def ueventFold : List String → UeventAcc → UeventAcc
  | [], acc => acc
  | line :: rest, acc =>
    if line.length = 0 then ueventFold rest acc
    else
      match splitStr '=' (trimStr line) with
      | [key, value] =>
        ueventFold rest
          (if key = "MAJOR" then { acc with major := value }
           else if key = "MINOR" then { acc with minor := value }
           else if key = "DEVNAME" then { acc with devname := value }
           else if key = "DEVTYPE" then { acc with devtype := value }
           else acc)
      | _ => ueventFold rest acc

end Sys

namespace Sys

/-- When every non-empty line is well-formed, the parser loop succeeds and
computes exactly the last-value fold. -/
theorem parseUeventLines_ok (lines : List String) :
    ∀ acc, (∀ l ∈ lines, l.length = 0 ∨ goodUeventLine l = true) →
      parseUeventLines lines acc = .ok (ueventFold lines acc) := by
  induction lines with
  | nil => intro acc _; rfl
  | cons line rest ih =>
    intro acc h
    have hline := h line (by simp)
    have hrest : ∀ l ∈ rest, l.length = 0 ∨ goodUeventLine l = true :=
      fun l hl => h l (by simp [hl])
    by_cases hlen : line.length = 0
    · simp only [parseUeventLines, ueventFold, if_pos hlen]
      exact ih acc hrest
    · rcases hline with h0 | hgood
      · exact absurd h0 hlen
      · rcases hsplit : splitStr '=' (trimStr line) with _ | ⟨key, _ | ⟨value, _ | _⟩⟩ <;>
          rw [goodUeventLine, hsplit] at hgood
        · simp at hgood
        · simp at hgood
        · simp only [parseUeventLines, ueventFold, if_neg hlen, hsplit]
          simp only [ueventKeys, List.contains_cons, List.contains_nil,
            Bool.or_eq_true, beq_iff_eq, Bool.or_false] at hgood
          rcases hgood with h1 | h1 | h1 | h1 <;> simp only [h1] <;>
            exact ih _ hrest
        · simp at hgood

end Sys

namespace Sys

/-- Exhaustive behaviour of the parser loop: it either succeeds computing
the last-value fold with every non-empty line well-formed, or errors with
some non-empty ill-formed line in the input. -/
theorem parseUeventLines_cases (lines : List String) :
    ∀ acc, (parseUeventLines lines acc = .ok (ueventFold lines acc)
          ∧ ∀ l ∈ lines, l.length = 0 ∨ goodUeventLine l = true)
      ∨ ((∃ e, parseUeventLines lines acc = .error e)
          ∧ ∃ l ∈ lines, l.length ≠ 0 ∧ goodUeventLine l = false) := by
  induction lines with
  | nil =>
    intro acc
    left
    exact ⟨rfl, by simp⟩
  | cons line rest ih =>
    intro acc
    by_cases hlen : line.length = 0
    · rcases ih acc with ⟨hok, hgoodall⟩ | ⟨⟨e, herr⟩, l, hl, hbad⟩
      · left
        refine ⟨?_, ?_⟩
        · simp only [parseUeventLines, ueventFold, if_pos hlen]
          exact hok
        · intro l hl
          rcases List.mem_cons.mp hl with rfl | hl
          · exact Or.inl hlen
          · exact hgoodall l hl
      · right
        refine ⟨⟨e, ?_⟩, l, by simp [hl], hbad⟩
        simp only [parseUeventLines, if_pos hlen]
        exact herr
    · rcases hsplit : splitStr '=' (trimStr line) with _ | ⟨key, _ | ⟨value, more⟩⟩
      · right
        refine ⟨⟨"uevent file format not supported", ?_⟩, line, by simp,
          hlen, ?_⟩
        · simp only [parseUeventLines, if_neg hlen, hsplit]
        · rw [goodUeventLine, hsplit]
      · right
        refine ⟨⟨"uevent file format not supported", ?_⟩, line, by simp,
          hlen, ?_⟩
        · simp only [parseUeventLines, if_neg hlen, hsplit]
        · rw [goodUeventLine, hsplit]
      · rcases more with _ | ⟨w, ws⟩
        · by_cases hrec : ueventKeys.contains key = true
          · have hrec4 : key = "MAJOR" ∨ key = "MINOR" ∨ key = "DEVNAME"
                ∨ key = "DEVTYPE" := by
              simpa [ueventKeys] using hrec
            rcases ih (if key = "MAJOR" then { acc with major := value }
                else if key = "MINOR" then { acc with minor := value }
                else if key = "DEVNAME" then { acc with devname := value }
                else if key = "DEVTYPE" then { acc with devtype := value }
                else acc) with ⟨hok, hgoodall⟩ | ⟨⟨e, herr⟩, l, hl, hbad⟩
            · left
              refine ⟨?_, ?_⟩
              · simp only [parseUeventLines, ueventFold, if_neg hlen, hsplit]
                rcases hrec4 with h1 | h1 | h1 | h1 <;> subst h1 <;>
                  simpa using hok
              · intro l hl
                rcases List.mem_cons.mp hl with rfl | hl
                · right
                  rw [goodUeventLine, hsplit]
                  exact hrec
                · exact hgoodall l hl
            · right
              refine ⟨⟨e, ?_⟩, l, by simp [hl], hbad⟩
              simp only [parseUeventLines, if_neg hlen, hsplit]
              rcases hrec4 with h1 | h1 | h1 | h1 <;> subst h1 <;>
                simpa using herr
          · right
            have hrec4 : ¬ (key = "MAJOR") ∧ ¬ (key = "MINOR")
                ∧ ¬ (key = "DEVNAME") ∧ ¬ (key = "DEVTYPE") := by
              constructor
              · intro h1; exact hrec (by simp [ueventKeys, h1])
              constructor
              · intro h1; exact hrec (by simp [ueventKeys, h1])
              constructor
              · intro h1; exact hrec (by simp [ueventKeys, h1])
              · intro h1; exact hrec (by simp [ueventKeys, h1])
            refine ⟨⟨"uevent file format not supported", ?_⟩, line, by simp,
              hlen, ?_⟩
            · simp only [parseUeventLines, if_neg hlen, hsplit]
              simp [hrec4.1, hrec4.2.1, hrec4.2.2.1, hrec4.2.2.2]
            · rw [goodUeventLine, hsplit]
              exact Bool.eq_false_iff.mpr hrec
        · right
          refine ⟨⟨"uevent file format not supported", ?_⟩, line, by simp,
            hlen, ?_⟩
          · simp only [parseUeventLines, if_neg hlen, hsplit]
          · rw [goodUeventLine, hsplit]

end Sys

/-- C9: parsing a uevent record fails iff some non-empty line is not a
single recognized `KEY=VALUE` pair (trimmed, split on `=`, key among
MAJOR, MINOR, DEVNAME, DEVTYPE) or the final MAJOR/MINOR values do not
parse as 32-bit unsigned integers; on success the returned device carries
exactly the parsed (last-value) devname, devtype, major and minor. -/
theorem c9_spec (content : String) :
    ((∃ d, Sys.parseUevent content = .ok d) ↔
      ((∀ l ∈ splitStr '\n' content, l.length = 0 ∨ Sys.goodUeventLine l = true)
        ∧ (Sys.parseUint32
            (Sys.ueventFold (splitStr '\n' content) ⟨"", "", "", ""⟩).major).isSome = true
        ∧ (Sys.parseUint32
            (Sys.ueventFold (splitStr '\n' content) ⟨"", "", "", ""⟩).minor).isSome = true))
    ∧ (∀ d, Sys.parseUevent content = .ok d →
        d.devname = (Sys.ueventFold (splitStr '\n' content) ⟨"", "", "", ""⟩).devname
        ∧ d.devtype = (Sys.ueventFold (splitStr '\n' content) ⟨"", "", "", ""⟩).devtype
        ∧ some d.major = Sys.parseUint32
            (Sys.ueventFold (splitStr '\n' content) ⟨"", "", "", ""⟩).major
        ∧ some d.minor = Sys.parseUint32
            (Sys.ueventFold (splitStr '\n' content) ⟨"", "", "", ""⟩).minor) := by
  rcases Sys.parseUeventLines_cases (splitStr '\n' content) ⟨"", "", "", ""⟩ with
    ⟨hok, hgood⟩ | ⟨⟨e, herr⟩, l, hl, hlen, hbad⟩
  · rcases hM : Sys.parseUint32
        (Sys.ueventFold (splitStr '\n' content) ⟨"", "", "", ""⟩).major with _ | m
    · constructor
      · constructor
        · rintro ⟨d, hd⟩
          simp only [Sys.parseUevent, hok, hM] at hd
          exact Except.noConfusion hd
        · rintro ⟨-, hMa, -⟩
          simp at hMa
      · intro d hd
        simp only [Sys.parseUevent, hok, hM] at hd
        exact Except.noConfusion hd
    · rcases hN : Sys.parseUint32
          (Sys.ueventFold (splitStr '\n' content) ⟨"", "", "", ""⟩).minor with _ | n
      · constructor
        · constructor
          · rintro ⟨d, hd⟩
            simp only [Sys.parseUevent, hok, hM, hN] at hd
            exact Except.noConfusion hd
          · rintro ⟨-, -, hMi⟩
            simp at hMi
        · intro d hd
          simp only [Sys.parseUevent, hok, hM, hN] at hd
          exact Except.noConfusion hd
      · constructor
        · constructor
          · intro _
            exact ⟨hgood, rfl, rfl⟩
          · intro _
            refine ⟨⟨(Sys.ueventFold (splitStr '\n' content) ⟨"", "", "", ""⟩).devname,
              (Sys.ueventFold (splitStr '\n' content) ⟨"", "", "", ""⟩).devtype,
              m, n⟩, ?_⟩
            simp only [Sys.parseUevent, hok, hM, hN]
        · intro d hd
          simp only [Sys.parseUevent, hok, hM, hN] at hd
          injection hd with hd'
          subst hd'
          exact ⟨rfl, rfl, rfl, rfl⟩
  · constructor
    · constructor
      · rintro ⟨d, hd⟩
        simp only [Sys.parseUevent, herr] at hd
        exact Except.noConfusion hd
      · rintro ⟨hall, -, -⟩
        rcases hall l hl with h0 | h1
        · exact (hlen h0).elim
        · rw [hbad] at h1
          exact (Bool.false_ne_true h1).elim
    · intro d hd
      simp only [Sys.parseUevent, herr] at hd
      exact Except.noConfusion hd

/-- Witness for C9: a well-formed four-line uevent record parses
successfully. -/
theorem c9_witness :
    ∃ d, Sys.parseUevent "MAJOR=8\nMINOR=0\nDEVNAME=sda\nDEVTYPE=disk"
      = .ok d :=
  (c9_spec "MAJOR=8\nMINOR=0\nDEVNAME=sda\nDEVTYPE=disk").1.mpr (by decide)

namespace Sys

/-- Per-device attribute files under `/sys/class/block/<name>/` as an
abstract sysfs: `none` is a missing file, `some s` the file content.
`symlinkTarget` is the `filepath.EvalSymlinks` resolution of the device
directory (`none` when resolution fails). -/
structure SysDevFiles where
  dev : Option String
  size : Option String
  nguid : Option String
  partition : Option String
  removable : Option String
  ro : Option String
  uuid : Option String
  wwid : Option String
  model : Option String
  serial : Option String
  vendor : Option String
  dmName : Option String
  dmUUID : Option String
  mdUUID : Option String
  symlinkTarget : Option String
deriving Repr, DecidableEq

/-- First line of a file, as `bufio.Reader.ReadString('\n')` delivers it
(the trailing newline is trimmed by the caller anyway). -/
def firstLine (s : String) : String :=
  match splitOnChar '\n' s.data with
  | l :: _ => l.asString
  | [] => ""

/-- `readFirstLine` (`part_000` lines 37-51): a missing file is an error
only when `errorIfNotExist`; otherwise it reads as the empty string. -/
def readFirstLine (content : Option String) (errorIfNotExist : Bool) :
    Except String String :=
  match content with
  | none =>
    if errorIfNotExist then .error "no such file or directory" else .ok ""
  | some s => .ok (trimStr (firstLine s))

/-- `strings.SplitN(s, sep, 2)` for a one-character separator. -/
def splitN2 (sep : Char) (s : String) : List String :=
  match splitOnChar sep s.data with
  | [] => []
  | [x] => [x.asString]
  | x :: rest => [x.asString, (List.intercalate [sep] rest).asString]

/-- `strconv.Atoi`: optional sign, at least one digit, nothing else (the
64-bit range bound is out of the model). -/
def parseAtoi (s : String) : Option Int :=
  let digitsVal : List Char → Option Int := fun ds =>
    if ds.isEmpty then none
    else if ds.all Char.isDigit then
      some (ds.foldl (fun a c => a * 10 + ((c.toNat : Int) - 48)) 0)
    else none
  match s.data with
  | '+' :: ds => digitsVal ds
  | '-' :: ds => (digitsVal ds).map (fun n => -n)
  | ds => digitsVal ds

/-- `strconv.ParseUint(s, 10, 64)`. -/
def parseUint64 (s : String) : Option Nat :=
  if s.length = 0 then none
  else if s.data.all (fun c => c.isDigit) then
    let n := s.data.foldl (fun acc c => acc * 10 + (c.toNat - 48)) 0
    if n < 18446744073709551616 then some n else none
  else none

/-- `getMajorMinor` (`part_000` lines 65-82): the required `dev` file,
split at the first `:`, both halves parsed with `Atoi`. -/
def getMajorMinor (f : SysDevFiles) : Except String (Int × Int) :=
  match readFirstLine f.dev true with
  | .error e => .error e
  | .ok majorMinor =>
    match splitN2 ':' majorMinor with
    | [a, b] =>
      match parseAtoi a with
      | none => .error "invalid syntax"
      | some major =>
        match parseAtoi b with
        | none => .error "invalid syntax"
        | some minor => .ok (major, minor)
    | _ => .error ("unknown format of " ++ majorMinor)

/-- `getSize` (lines 84-94): the required `size` file, `ParseUint` times
512 (wrapping as a Go uint64 would). -/
def getSize (f : SysDevFiles) : Except String Nat :=
  match readFirstLine f.size true with
  | .error e => .error e
  | .ok s =>
    match parseUint64 s with
    | none => .error "invalid syntax"
    | some n => .ok ((n * 512) % 18446744073709551616)

/-- `getPartition` (lines 100-109): optional file; non-empty content is
parsed with `Atoi`, empty reads as partition 0. -/
def getPartition (f : SysDevFiles) : Except String Int :=
  match readFirstLine f.partition false with
  | .error e => .error e
  | .ok s =>
    if s ≠ "" then
      match parseAtoi s with
      | none => .error "invalid syntax"
      | some n => .ok n
    else .ok 0

/-- `getRemovable`/`getReadOnly` (lines 111-119): optional file; any
content other than empty or `0` is true. -/
def getBoolAttr (content : Option String) : Except String Bool :=
  match readFirstLine content false with
  | .error e => .error e
  | .ok s => .ok (s ≠ "" && s ≠ "0")

/-- The optional string attributes (`getNGUID`, `getUUID`, `getWWID`,
`getModel`, `getSerial`, `getVendor`, `getDMName`, `getDMUUID`,
`getMDUUID`): `readFirstLine` without the existence requirement. -/
def getStrAttr (content : Option String) : Except String String :=
  readFirstLine content false

/-- `getVirtual` (lines 153-159): resolve the symlink, then test the
`/sys/devices/virtual/block/` path start. -/
def getVirtual (f : SysDevFiles) : Except String Bool :=
  match f.symlinkTarget with
  | none => .error "no such file or directory"
  | some p => .ok (strHasPrefix p "/sys/devices/virtual/block/")

/-- The probed device record (`sys.Device`), before the parent/master and
mount-point passes. -/
structure Device where
  name : String
  major : Int
  minor : Int
  size : Nat
  nguid : String
  partitionNum : Int
  removable : Bool
  readOnly : Bool
  uuid : String
  wwid : String
  model : String
  serial : String
  vendor : String
  dmName : String
  dmUUID : String
  mdUUID : String
  virtual : Bool
  parent : String
  master : String
  mountPoints : List String
deriving Repr, DecidableEq

/-- The body of the first `probeDevices` loop (`part_000` lines 225-273):
read every attribute in program order; the first failure aborts with that
error. -/
def probeDevice (name : String) (f : SysDevFiles) : Except String Device := do
  let mm ← getMajorMinor f
  let size ← getSize f
  let nguid ← getStrAttr f.nguid
  let partitionNum ← getPartition f
  let removable ← getBoolAttr f.removable
  let readOnly ← getBoolAttr f.ro
  let uuid ← getStrAttr f.uuid
  let wwid ← getStrAttr f.wwid
  let model ← getStrAttr f.model
  let serial ← getStrAttr f.serial
  let vendor ← getStrAttr f.vendor
  let dmName ← getStrAttr f.dmName
  let dmUUID ← getStrAttr f.dmUUID
  let mdUUID ← getStrAttr f.mdUUID
  let virtual ← getVirtual f
  .ok { name := name, major := mm.1, minor := mm.2, size := size,
        nguid := nguid, partitionNum := partitionNum, removable := removable,
        readOnly := readOnly, uuid := uuid, wwid := wwid, model := model,
        serial := serial, vendor := vendor, dmName := dmName,
        dmUUID := dmUUID, mdUUID := mdUUID, virtual := virtual,
        parent := "", master := "", mountPoints := [] }

/-- The first `probeDevices` loop over `/sys/class/block`: any device
error aborts the whole probe. -/
def probeLoop : List (String × SysDevFiles) →
    Except String (List (String × Device))
  | [] => .ok []
  | (name, f) :: rest =>
    match probeDevice name f with
    | .error e => .error e
    | .ok d =>
      match probeLoop rest with
      | .error e => .error e
      | .ok ds => .ok ((name, d) :: ds)

/-- In-place update of the device keyed `key`; `none` when the key is
absent (where the Go code dereferences a nil map entry and panics). -/
def updateEntry (key : String) (g : Device → Device) :
    List (String × Device) → Option (List (String × Device))
  | [] => none
  | (k, d) :: rest =>
    if k = key then some ((k, g d) :: rest)
    else
      match updateEntry key g rest with
      | none => none
      | some r => some ((k, d) :: r)

/-- Apply an update to every listed key. -/
def setMany (keys : List String) (g : Device → Device)
    (devs : List (String × Device)) : Option (List (String × Device)) :=
  match keys with
  | [] => some devs
  | k :: ks =>
    match updateEntry k g devs with
    | none => none
    | some d1 => setMany ks g d1

/-- The second `probeDevices` loop (lines 278-294): for each `/sys/block`
disk, mark the disk-prefixed subentries with their parent and the
`slaves/` entries with their master. A key absent from the device map is a
nil-pointer dereference in the source, modelled as an error. -/
def applySysBlock : List (String × List String × List String) →
    List (String × Device) → Except String (List (String × Device))
  | [], devs => .ok devs
  | (name, entries, slaves) :: rest, devs =>
    let partitions := entries.filter (fun n => strHasPrefix n name)
    match setMany partitions (fun d => { d with parent := name }) devs with
    | none => .error "invalid memory address or nil pointer dereference"
    | some devs1 =>
      match setMany slaves (fun d => { d with master := name }) devs1 with
      | none => .error "invalid memory address or nil pointer dereference"
      | some devs2 => applySysBlock rest devs2

/-- Lookup of a `major:minor` key in the mount-info map. -/
def lookupMounts (key : String) : List (String × List String) → List String
  | [] => []
  | (k, v) :: rest => if k = key then v else lookupMounts key rest

/-- The mount-point pass (lines 296-302). -/
def assignMountPoints (mountInfo : List (String × List String))
    (devs : List (String × Device)) : List (String × Device) :=
  devs.map fun kd =>
    (kd.1, { kd.2 with
      mountPoints :=
        lookupMounts (toString kd.2.major ++ ":" ++ toString kd.2.minor)
          mountInfo })

/-- The abstract sysfs/procfs state read by `probeDevices`: the
`/sys/class/block` listing with each device's files, the `/sys/block`
listing with each disk's directory entries and `slaves/` entries, and the
parsed `/proc/1/mountinfo` map. -/
structure SysFS where
  classBlock : List (String × SysDevFiles)
  sysBlock : List (String × List String × List String)
  mountInfo : List (String × List String)
deriving Repr, DecidableEq

/-- `probeDevices` (`part_000` lines 218-305). -/
def probeDevices (fs : SysFS) : Except String (List (String × Device)) :=
  match probeLoop fs.classBlock with
  | .error e => .error e
  | .ok devs =>
    match applySysBlock fs.sysBlock devs with
    | .error e => .error e
    | .ok devs2 => .ok (assignMountPoints fs.mountInfo devs2)

end Sys

namespace Sys

/-- A device whose required `dev` attribute file is missing fails to
probe. -/
theorem probeDevice_dev_missing (name : String) (f : SysDevFiles)
    (h : f.dev = none) :
    probeDevice name f = .error "no such file or directory" := by
  have h1 : getMajorMinor f = .error "no such file or directory" := by
    simp [getMajorMinor, readFirstLine, h]
  unfold probeDevice
  rw [h1]
  rfl

/-- One failing device aborts the whole first probe loop. -/
theorem probeLoop_error (name : String) (f : SysDevFiles) :
    ∀ (l : List (String × SysDevFiles)), (name, f) ∈ l →
      (∃ e0, probeDevice name f = .error e0) →
      ∃ e, probeLoop l = .error e := by
  intro l
  induction l with
  | nil => simp
  | cons hd rest ih =>
    rintro hmem ⟨e0, hf⟩
    obtain ⟨k, g⟩ := hd
    rcases List.mem_cons.mp hmem with heq | hmem2
    · injection heq with hk hg
      subst hk
      subst hg
      refine ⟨e0, ?_⟩
      rw [probeLoop, hf]
    · rcases hpd : probeDevice k g with e1 | d
      · exact ⟨e1, by rw [probeLoop, hpd]⟩
      · obtain ⟨e2, h2⟩ := ih hmem2 ⟨e0, hf⟩
        exact ⟨e2, by rw [probeLoop, hpd, h2]⟩

end Sys

/-- C6 (amended): a missing optional attribute file yields an empty string
for that attribute of the probed device, but a missing required file (the
`dev` file read by `getMajorMinor`) aborts the whole probe: `probeDevices`
returns an error and none of the other devices. -/
theorem c6_spec :
    (∀ (fs : Sys.SysFS) (name : String) (f : Sys.SysDevFiles),
        (name, f) ∈ fs.classBlock → f.dev = none →
        ∃ e, Sys.probeDevices fs = .error e)
    ∧ (∀ (name : String) (f : Sys.SysDevFiles) (d : Sys.Device),
        Sys.probeDevice name f = .ok d →
        (f.nguid = none → d.nguid = "")
        ∧ (f.uuid = none → d.uuid = "")
        ∧ (f.wwid = none → d.wwid = "")
        ∧ (f.model = none → d.model = "")
        ∧ (f.serial = none → d.serial = "")
        ∧ (f.vendor = none → d.vendor = "")
        ∧ (f.dmName = none → d.dmName = "")
        ∧ (f.dmUUID = none → d.dmUUID = "")
        ∧ (f.mdUUID = none → d.mdUUID = "")) := by
  constructor
  · intro fs name f hmem hdev
    obtain ⟨e, he⟩ :=
      Sys.probeLoop_error name f fs.classBlock hmem
        ⟨"no such file or directory", Sys.probeDevice_dev_missing name f hdev⟩
    refine ⟨e, ?_⟩
    rw [Sys.probeDevices, he]
  · intro name f d hok
    unfold Sys.probeDevice at hok
    rcases h1 : Sys.getMajorMinor f with e | mm
    · rw [h1] at hok
      exact Except.noConfusion hok
    rw [h1] at hok
    rcases h2 : Sys.getSize f with e | size
    · rw [h2] at hok
      exact Except.noConfusion hok
    rw [h2] at hok
    rcases h3 : Sys.getStrAttr f.nguid with e | nguid
    · rw [h3] at hok
      exact Except.noConfusion hok
    rw [h3] at hok
    rcases h4 : Sys.getPartition f with e | partitionNum
    · rw [h4] at hok
      exact Except.noConfusion hok
    rw [h4] at hok
    rcases h5 : Sys.getBoolAttr f.removable with e | removable
    · rw [h5] at hok
      exact Except.noConfusion hok
    rw [h5] at hok
    rcases h6 : Sys.getBoolAttr f.ro with e | readOnly
    · rw [h6] at hok
      exact Except.noConfusion hok
    rw [h6] at hok
    rcases h7 : Sys.getStrAttr f.uuid with e | uuid
    · rw [h7] at hok
      exact Except.noConfusion hok
    rw [h7] at hok
    rcases h8 : Sys.getStrAttr f.wwid with e | wwid
    · rw [h8] at hok
      exact Except.noConfusion hok
    rw [h8] at hok
    rcases h9 : Sys.getStrAttr f.model with e | model
    · rw [h9] at hok
      exact Except.noConfusion hok
    rw [h9] at hok
    rcases h10 : Sys.getStrAttr f.serial with e | serial
    · rw [h10] at hok
      exact Except.noConfusion hok
    rw [h10] at hok
    rcases h11 : Sys.getStrAttr f.vendor with e | vendor
    · rw [h11] at hok
      exact Except.noConfusion hok
    rw [h11] at hok
    rcases h12 : Sys.getStrAttr f.dmName with e | dmName
    · rw [h12] at hok
      exact Except.noConfusion hok
    rw [h12] at hok
    rcases h13 : Sys.getStrAttr f.dmUUID with e | dmUUID
    · rw [h13] at hok
      exact Except.noConfusion hok
    rw [h13] at hok
    rcases h14 : Sys.getStrAttr f.mdUUID with e | mdUUID
    · rw [h14] at hok
      exact Except.noConfusion hok
    rw [h14] at hok
    rcases h15 : Sys.getVirtual f with e | virt
    · rw [h15] at hok
      exact Except.noConfusion hok
    rw [h15] at hok
    injection hok with hd
    subst hd
    have hstr : ∀ (c : Option String) (v : String), c = none →
        Sys.getStrAttr c = .ok v → v = "" := by
      intro c v hc hv
      rw [hc] at hv
      simp [Sys.getStrAttr, Sys.readFirstLine] at hv
      exact hv.symm
    exact ⟨fun h => (hstr _ _ h h3).symm ▸ rfl,
      fun h => (hstr _ _ h h7).symm ▸ rfl,
      fun h => (hstr _ _ h h8).symm ▸ rfl,
      fun h => (hstr _ _ h h9).symm ▸ rfl,
      fun h => (hstr _ _ h h10).symm ▸ rfl,
      fun h => (hstr _ _ h h11).symm ▸ rfl,
      fun h => (hstr _ _ h h12).symm ▸ rfl,
      fun h => (hstr _ _ h h13).symm ▸ rfl,
      fun h => (hstr _ _ h h14).symm ▸ rfl⟩

/-- A device directory with every file the probe wants. -/
def c6GoodFiles : Sys.SysDevFiles :=
  { dev := some "8:0", size := some "1024", nguid := none, partition := none,
    removable := some "0", ro := some "0", uuid := none, wwid := none,
    model := some "DISK", serial := some "S1", vendor := some "V",
    dmName := none, dmUUID := none, mdUUID := none,
    symlinkTarget := some "/sys/devices/pci0/block/sda" }

/-- A device directory missing the required `dev` file. -/
def c6BadFiles : Sys.SysDevFiles :=
  { dev := none, size := some "2048", nguid := none, partition := none,
    removable := some "0", ro := some "0", uuid := none, wwid := none,
    model := some "DISK2", serial := some "S2", vendor := some "V",
    dmName := none, dmUUID := none, mdUUID := none,
    symlinkTarget := some "/sys/devices/pci0/block/sdb" }

def c6FS : Sys.SysFS :=
  { classBlock := [("sda", c6GoodFiles), ("sdb", c6BadFiles)],
    sysBlock := [], mountInfo := [] }

def c6FSOnlyGood : Sys.SysFS :=
  { classBlock := [("sda", c6GoodFiles)], sysBlock := [], mountInfo := [] }

/-- The device record the probe produces for `sda`. -/
def c6ExpectedDevice : Sys.Device :=
  { name := "sda", major := 8, minor := 0, size := 524288, nguid := "",
    partitionNum := 0, removable := false, readOnly := false, uuid := "",
    wwid := "", model := "DISK", serial := "S1", vendor := "V",
    dmName := "", dmUUID := "", mdUUID := "", virtual := false,
    parent := "", master := "", mountPoints := [] }

set_option maxRecDepth 8192 in
/-- C6 counterexample: with `sda` complete and `sdb` missing its required
`dev` file, the probe returns an error and no devices at all — probing a
tree with `sda` alone succeeds, so the failure of `sdb` is what discards
`sda`, contradicting "other devices continue". -/
theorem c6_counterexample :
    Sys.probeDevices c6FS = .error "no such file or directory"
    ∧ Sys.probeDevices c6FSOnlyGood = .ok [("sda", c6ExpectedDevice)] :=
  ⟨rfl, rfl⟩

/-- Witness for C6: the amended theorem applied to the concrete sysfs with
the broken `sdb`. -/
theorem c6_witness : ∃ e, Sys.probeDevices c6FS = .error e :=
  c6_spec.1 c6FS "sdb" c6BadFiles (by simp [c6FS]) rfl

namespace NameGen

/-- A character the regex `[^-\.a-z0-9]+` leaves alone. -/
def allowedChar (c : Char) : Bool :=
  c = '-' || c = '.' || ('a' ≤ c && c ≤ 'z') || ('0' ≤ c && c ≤ '9')

/-- `[a-z0-9]`. -/
def alnumChar (c : Char) : Bool :=
  ('a' ≤ c && c ≤ 'z') || ('0' ≤ c && c ≤ '9')

/-- A character legal inside a DNS-1123 label: `[-a-z0-9]`. -/
def labelChar (c : Char) : Bool :=
  c = '-' || alnumChar c

/-- `dns1123AllowedCharsRegex.ReplaceAllString(·, "-")`: each maximal run
of disallowed characters becomes one dash; `inRun` records whether the
previous character was part of such a run. -/
def sanitizeGo (inRun : Bool) : List Char → List Char
  | [] => []
  | c :: cs =>
    if allowedChar c then c :: sanitizeGo false cs
    else if inRun then sanitizeGo true cs
    else '-' :: sanitizeGo true cs

def sanitize (l : List Char) : List Char := sanitizeGo false l

/-- Drop trailing dashes. -/
def dropTrailingDashes : List Char → List Char
  | [] => []
  | c :: cs =>
    match dropTrailingDashes cs with
    | [] => if c = '-' then [] else [c]
    | r => c :: r

/-- `strings.Trim(s, "-")`. -/
def trimDashes (l : List Char) : List Char :=
  dropTrailingDashes (l.dropWhile fun c => c = '-')

/-- `strings.Join(parts, ".")` at character level. -/
def joinSep (sep : Char) : List (List Char) → List Char
  | [] => []
  | [p] => p
  | p :: q :: ps => p ++ sep :: joinSep sep (q :: ps)

/-- One label of `dns1123SubdomainRegex`:
`[a-z0-9]([-a-z0-9]*[a-z0-9])?` — non-empty, label characters only, first
and last alphanumeric. -/
def labelOK : List Char → Bool
  | [] => false
  | c :: cs =>
    alnumChar c && (c :: cs).all labelChar
      && alnumChar ((c :: cs).getLast (List.cons_ne_nil c cs))

/-- `dns1123SubdomainRegex.MatchString`: the regex
`^[a-z0-9]([-a-z0-9]*[a-z0-9])?(\.[a-z0-9]([-a-z0-9]*[a-z0-9])?)*$`
matches exactly the strings all of whose dot-separated labels satisfy
`labelOK` (`splitOnChar` never returns an empty list, so the at-least-one-
label requirement is the `all` over its result). -/
def matchesSubdomain (l : List Char) : Bool :=
  (splitOnChar '.' l).all labelOK

/-- Result of `makeName`: the Go function returns an error, panics on its
own validity assertion, or returns the subdomain. -/
inductive NameResult where
  | errored (msg : String)
  | assertFailed
  | ok (s : String)
deriving Repr, DecidableEq

/-- `makeName` (`pkg/node/utils.go` lines 238-256): lowercase (Go lowers
all of Unicode, Lean only ASCII; every character affected by the
difference is replaced by the sanitizer either way), collapse disallowed
runs to dashes, split on dots, trim dashes from each part, keep the
non-empty parts; no part left is an error, otherwise join with dots and
assert the DNS-1123 subdomain regex. -/
def makeName (input : String) : NameResult :=
  let temp := sanitize (input.data.map Char.toLower)
  let inputParts := splitOnChar '.' temp
  let subdomainParts := (inputParts.map trimDashes).filter fun p => !p.isEmpty
  if subdomainParts.isEmpty then
    .errored ("Can not make a valid DNS-1123 subdomain from " ++ input)
  else
    let subdomain := joinSep '.' subdomainParts
    if matchesSubdomain subdomain then .ok subdomain.asString
    else .assertFailed

end NameGen

namespace NameGen

/-- Every character the sanitizer emits is allowed (dashes included). -/
theorem sanitizeGo_allowed (l : List Char) :
    ∀ b, ∀ c ∈ sanitizeGo b l, allowedChar c = true := by
  induction l with
  | nil => intro b c hc; simp [sanitizeGo] at hc
  | cons d cs ih =>
    intro b c hc
    by_cases hd : allowedChar d
    · rw [sanitizeGo, if_pos hd] at hc
      rcases List.mem_cons.mp hc with rfl | hc
      · exact hd
      · exact ih false c hc
    · rw [sanitizeGo, if_neg hd] at hc
      by_cases hb : b
      · rw [if_pos hb] at hc
        exact ih true c hc
      · rw [if_neg hb] at hc
        rcases List.mem_cons.mp hc with rfl | hc
        · decide
        · exact ih true c hc

/-- `splitOnChar` never returns the empty list of fields. -/
theorem splitOnChar_ne_nil (sep : Char) (l : List Char) :
    splitOnChar sep l ≠ [] := by
  induction l with
  | nil => simp [splitOnChar]
  | cons c cs ih =>
    rw [splitOnChar]
    by_cases hc : c = sep
    · simp [hc]
    · rw [if_neg hc]
      rcases hs : splitOnChar sep cs with _ | ⟨h, t⟩
      · exact absurd hs ih
      · simp

/-- Characters of a field come from the input and are never the
separator. -/
theorem mem_splitOnChar (sep : Char) (l : List Char) :
    ∀ p ∈ splitOnChar sep l, ∀ c ∈ p, c ∈ l ∧ c ≠ sep := by
  induction l with
  | nil =>
    intro p hp c hc
    simp [splitOnChar] at hp
    subst hp
    simp at hc
  | cons d cs ih =>
    intro p hp c hc
    rw [splitOnChar] at hp
    by_cases hd : d = sep
    · rw [if_pos hd] at hp
      rcases List.mem_cons.mp hp with rfl | hp
      · simp at hc
      · obtain ⟨hcl, hcs⟩ := ih p hp c hc
        exact ⟨List.mem_cons_of_mem d hcl, hcs⟩
    · rw [if_neg hd] at hp
      rcases hs : splitOnChar sep cs with _ | ⟨h, t⟩
      · exact absurd hs (splitOnChar_ne_nil sep cs)
      · rw [hs] at hp
        rcases List.mem_cons.mp hp with rfl | hp
        · rcases List.mem_cons.mp hc with rfl | hc
          · exact ⟨List.mem_cons_self c cs, hd⟩
          · obtain ⟨hcl, hcs⟩ := ih h (hs ▸ List.mem_cons_self h t) c hc
            exact ⟨List.mem_cons_of_mem d hcl, hcs⟩
        · obtain ⟨hcl, hcs⟩ := ih p (hs ▸ List.mem_cons_of_mem h hp) c hc
          exact ⟨List.mem_cons_of_mem d hcl, hcs⟩

/-- The head surviving `dropWhile` fails the predicate. -/
theorem dropWhile_head (p : Char → Bool) (l : List Char) :
    ∀ c r, l.dropWhile p = c :: r → p c = false := by
  induction l with
  | nil => intro c r h; simp at h
  | cons d cs ih =>
    intro c r h
    rw [List.dropWhile_cons] at h
    by_cases hd : p d
    · rw [if_pos hd] at h
      exact ih c r h
    · rw [if_neg hd] at h
      obtain ⟨rfl, -⟩ := List.cons.injEq .. |>.mp h |>.imp id id
      exact Bool.eq_false_iff.mpr hd

/-- Characters survive `dropTrailingDashes` only from the input. -/
theorem mem_dropTrailingDashes (l : List Char) :
    ∀ c ∈ dropTrailingDashes l, c ∈ l := by
  induction l with
  | nil => simp [dropTrailingDashes]
  | cons d cs ih =>
    intro c hc
    rw [dropTrailingDashes] at hc
    rcases hr : dropTrailingDashes cs with _ | ⟨x, xs⟩
    · rw [hr] at hc
      by_cases hd : d = '-'
      · rw [if_pos hd] at hc
        simp at hc
      · rw [if_neg hd] at hc
        rcases List.mem_cons.mp hc with rfl | hc
        · exact List.mem_cons_self c cs
        · simp at hc
    · rw [hr] at hc
      rcases List.mem_cons.mp hc with rfl | hc
      · exact List.mem_cons_self c cs
      · exact List.mem_cons_of_mem d (ih c (hr ▸ hc))

/-- The last character, if any, after `dropTrailingDashes` is not a
dash. -/
theorem getLast_dropTrailingDashes (l : List Char) :
    ∀ c, (dropTrailingDashes l).getLast? = some c → c ≠ '-' := by
  induction l with
  | nil => intro c h; simp [dropTrailingDashes] at h
  | cons d cs ih =>
    intro c h
    rw [dropTrailingDashes] at h
    rcases hr : dropTrailingDashes cs with _ | ⟨x, xs⟩
    · rw [hr] at h
      by_cases hd : d = '-'
      · rw [if_pos hd] at h
        simp at h
      · rw [if_neg hd] at h
        simp at h
        subst h
        exact hd
    · rw [hr] at h
      rw [List.getLast?_cons_cons] at h
      exact ih c (hr ▸ h)

/-- `dropTrailingDashes` keeps the head when anything survives. -/
theorem head_dropTrailingDashes (d : Char) (t : List Char) :
    dropTrailingDashes (d :: t) = []
    ∨ ∃ r, dropTrailingDashes (d :: t) = d :: r := by
  rw [dropTrailingDashes]
  rcases dropTrailingDashes t with _ | ⟨x, xs⟩
  · by_cases hd : d = '-'
    · left
      rw [if_pos hd]
    · right
      exact ⟨[], by rw [if_neg hd]⟩
  · right
    exact ⟨x :: xs, rfl⟩

end NameGen

namespace NameGen

/-- Characters survive `trimDashes` only from the input. -/
theorem mem_trimDashes (l : List Char) : ∀ c ∈ trimDashes l, c ∈ l := by
  intro c hc
  have h1 := mem_dropTrailingDashes _ c hc
  exact List.dropWhile_sublist (fun c => decide (c = '-')) |>.mem h1

/-- The head after `trimDashes`, if any, is not a dash. -/
theorem head_trimDashes (l : List Char) :
    ∀ c r, trimDashes l = c :: r → c ≠ '-' := by
  intro c r h
  unfold trimDashes at h
  rcases hdw : l.dropWhile (fun c => c = '-') with _ | ⟨d, t⟩
  · rw [hdw] at h
    simp [dropTrailingDashes] at h
  · have hd : (d = '-') = false := by
      simpa using dropWhile_head _ l d t hdw
    rw [hdw] at h
    rcases head_dropTrailingDashes d t with h0 | ⟨r2, h2⟩
    · rw [h0] at h
      exact absurd h (by simp)
    · rw [h2] at h
      obtain rfl : d = c := by
        have := List.cons.injEq d r2 c r |>.mp h
        exact this.1
      simpa using hd

/-- The last character after `trimDashes`, if any, is not a dash. -/
theorem getLast_trimDashes (l : List Char) :
    ∀ c, (trimDashes l).getLast? = some c → c ≠ '-' :=
  fun c h => getLast_dropTrailingDashes _ c h

/-- An allowed character other than dash and dot is alphanumeric. -/
theorem allowed_alnum (c : Char) (h : allowedChar c = true)
    (hdash : c ≠ '-') (hdot : c ≠ '.') : alnumChar c = true := by
  simp only [allowedChar, Bool.or_eq_true, Bool.and_eq_true,
    decide_eq_true_eq] at h
  simp only [alnumChar, Bool.or_eq_true, Bool.and_eq_true,
    decide_eq_true_eq]
  tauto

/-- An allowed character other than dot is a label character. -/
theorem allowed_labelChar (c : Char) (h : allowedChar c = true)
    (hdot : c ≠ '.') : labelChar c = true := by
  by_cases hdash : c = '-'
  · simp [labelChar, hdash]
  · simp [labelChar, allowed_alnum c h hdash hdot]

/-- A non-empty list of allowed non-dot characters whose first and last
are not dashes is a valid DNS-1123 label. -/
theorem labelOK_of (p : List Char)
    (hchars : ∀ c ∈ p, allowedChar c = true ∧ c ≠ '.')
    (hhead : ∀ c r, p = c :: r → c ≠ '-')
    (hlast : ∀ c, p.getLast? = some c → c ≠ '-') :
    p = [] ∨ labelOK p = true := by
  rcases p with _ | ⟨c, cs⟩
  · exact Or.inl rfl
  right
  rw [labelOK]
  have hc := hchars c (List.mem_cons_self c cs)
  have hcd : c ≠ '-' := hhead c cs rfl
  have hlastmem : (c :: cs).getLast (List.cons_ne_nil c cs) ∈ c :: cs :=
    List.getLast_mem _
  have hlastchar := hchars _ hlastmem
  have hlastd : (c :: cs).getLast (List.cons_ne_nil c cs) ≠ '-' := by
    apply hlast
    rw [List.getLast?_eq_getLast]
  refine (Bool.and_eq_true ..).mpr ⟨(Bool.and_eq_true ..).mpr ⟨?_, ?_⟩, ?_⟩
  · exact allowed_alnum c hc.1 hcd hc.2
  · rw [List.all_eq_true]
    intro x hx
    have h := hchars x hx
    exact allowed_labelChar x h.1 h.2
  · exact allowed_alnum _ hlastchar.1 hlastd hlastchar.2

/-- A field without the separator splits to itself. -/
theorem splitOnChar_no_sep (sep : Char) (l : List Char)
    (h : ∀ c ∈ l, c ≠ sep) : splitOnChar sep l = [l] := by
  induction l with
  | nil => rfl
  | cons c cs ih =>
    have hcs : splitOnChar sep cs = [cs] :=
      ih fun x hx => h x (List.mem_cons_of_mem c hx)
    rw [splitOnChar, if_neg (h c (List.mem_cons_self c cs)), hcs]

/-- Splitting after appending a separator peels off the first field. -/
theorem splitOnChar_append_sep (sep : Char) (p r : List Char)
    (h : ∀ c ∈ p, c ≠ sep) :
    splitOnChar sep (p ++ sep :: r) = p :: splitOnChar sep r := by
  induction p with
  | nil => simp [splitOnChar]
  | cons c cs ih =>
    have hcs := ih fun x hx => h x (List.mem_cons_of_mem c hx)
    rw [List.cons_append, splitOnChar,
      if_neg (h c (List.mem_cons_self c cs)), hcs]

/-- Splitting a dot-join of dot-free fields recovers the fields. -/
theorem splitOnChar_joinSep (sep : Char) :
    ∀ parts : List (List Char), parts ≠ [] →
      (∀ p ∈ parts, ∀ c ∈ p, c ≠ sep) →
      splitOnChar sep (joinSep sep parts) = parts := by
  intro parts
  induction parts with
  | nil => intro h; exact absurd rfl h
  | cons p rest ih =>
    intro _ hsep
    rcases rest with _ | ⟨q, ps⟩
    · rw [joinSep]
      exact splitOnChar_no_sep sep p (hsep p (List.mem_cons_self p []))
    · rw [joinSep, splitOnChar_append_sep sep p _
        (hsep p (List.mem_cons_self p _)),
        ih (by simp) fun x hx => hsep x (List.mem_cons_of_mem p hx)]

end NameGen

namespace NameGen

/-- Every surviving (trimmed, non-empty) part of a sanitized string is a
dot-free valid DNS-1123 label. -/
theorem parts_labelOK (temp : List Char)
    (htemp : ∀ c ∈ temp, allowedChar c = true) :
    ∀ p ∈ ((splitOnChar '.' temp).map trimDashes).filter (fun p => !p.isEmpty),
      (∀ c ∈ p, c ≠ '.') ∧ labelOK p = true := by
  intro p hp
  obtain ⟨hmap, hne⟩ := List.mem_filter.mp hp
  obtain ⟨q, hq, rfl⟩ := List.mem_map.mp hmap
  have hchars : ∀ c ∈ trimDashes q, allowedChar c = true ∧ c ≠ '.' := by
    intro c hc
    have hcq := mem_trimDashes q c hc
    obtain ⟨hct, hcd⟩ := mem_splitOnChar '.' temp q hq c hcq
    exact ⟨htemp c hct, hcd⟩
  refine ⟨fun c hc => (hchars c hc).2, ?_⟩
  have hpe : trimDashes q ≠ [] := by
    simpa using hne
  rcases labelOK_of (trimDashes q) hchars
      (fun c r hcr => head_trimDashes q c r hcr)
      (fun c hcl => getLast_trimDashes q c hcl) with h0 | hok
  · exact absurd h0 hpe
  · exact hok

end NameGen

/-- C10: for every input string, `makeName` either returns an error (no
DNS-1123-legal characters survive sanitization) or returns a string
matching the DNS-1123 subdomain regular expression; the panic branch
asserting validity of the produced subdomain is unreachable. -/
theorem c10_spec (input : String) :
    (∃ e, NameGen.makeName input = .errored e)
    ∨ (∃ s, NameGen.makeName input = .ok s
        ∧ NameGen.matchesSubdomain s.data = true) := by
  by_cases hempty :
      (((splitOnChar '.' (NameGen.sanitize (input.data.map Char.toLower))).map
        NameGen.trimDashes).filter fun p => !p.isEmpty).isEmpty = true
  · left
    exact ⟨"Can not make a valid DNS-1123 subdomain from " ++ input,
      by simp only [NameGen.makeName, if_pos hempty]⟩
  · right
    have hall := NameGen.parts_labelOK
      (NameGen.sanitize (input.data.map Char.toLower))
      (fun c hc => NameGen.sanitizeGo_allowed _ false c hc)
    have hne :
        (((splitOnChar '.' (NameGen.sanitize (input.data.map Char.toLower))).map
          NameGen.trimDashes).filter fun p => !p.isEmpty) ≠ [] := by
      simpa using hempty
    have hmatch : NameGen.matchesSubdomain
        (NameGen.joinSep '.'
          (((splitOnChar '.'
              (NameGen.sanitize (input.data.map Char.toLower))).map
            NameGen.trimDashes).filter fun p => !p.isEmpty)) = true := by
      rw [NameGen.matchesSubdomain,
        NameGen.splitOnChar_joinSep '.' _ hne (fun p hp => (hall p hp).1),
        List.all_eq_true]
      exact fun p hp => (hall p hp).2
    refine ⟨(NameGen.joinSep '.'
        (((splitOnChar '.'
            (NameGen.sanitize (input.data.map Char.toLower))).map
          NameGen.trimDashes).filter fun p => !p.isEmpty)).asString, ?_, ?_⟩
    · simp only [NameGen.makeName, if_neg hempty, if_pos hmatch]
    · exact hmatch
